import Mathlib

/-! servicewait: a verification development.

A shallow embedding of `cmd/servicewait/main.go`.

* Go strings are modelled by `String` (valid UTF-8 text); the separator `':'`
  and the needle `"https"` are ASCII, so splitting and substring search by
  character coincide with Go's byte-wise operations.
* `time.Duration` and `int` are modelled by `Int` (a duration is a number of
  nanoseconds); no arithmetic of the program can overflow.
* The network, the clock and the library tables the program relies on are a
  record `Env σ` over an arbitrary world state `σ`; every effectful function
  takes the world and returns its result, the new world and the list of
  effects it produced, in order. The world moves on at every dial, request
  and sleep; writing to standard output and reading the clock leave it as it
  is.
* `float64` values are kept exactly and every operation rounds to nearest,
  ties to even, as IEEE 754 binary64 does.
-/

namespace ServiceWait

/-! ## Data model -/

/-- The constant `time.Millisecond`, in nanoseconds. -/
def Millisecond : Int := 1000000

/-- The constant `time.Second`, in nanoseconds. -/
def Second : Int := 1000000000

/-- The struct `Service`. -/
structure Service where
  Name : String
  Host : String
  Port : String
  Protocol : String
  Endpoint : String
  Timeout : Int
  MaxRetries : Int
  deriving DecidableEq, Repr

/-! ## Library functions on strings -/

/-- The pieces of a character list between the occurrences of `sep`
(`strings.Split` with a one-character separator): never an empty list. -/
def splitChars (sep : Char) : List Char → List (List Char)
  | [] => [[]]
  | c :: cs =>
    if c = sep then [] :: splitChars sep cs
    else
      match splitChars sep cs with
      | [] => [[c]]
      | p :: ps => (c :: p) :: ps

/-- The call `strings.Split(s, ":")`. -/
def splitColon (s : String) : List String :=
  (splitChars ':' s.data).map String.mk

/-- The call `strings.Contains(s, sub)`, on character lists: some suffix of
`s` starts with `sub`. -/
def containsChars (sub : List Char) : List Char → Bool
  | [] => sub.isPrefixOf []
  | c :: cs => sub.isPrefixOf (c :: cs) || containsChars sub cs

/-- The call `strings.Contains(s, sub)`. -/
def Contains (s sub : String) : Bool :=
  containsChars sub.data s.data

/-- The ASCII branch of `strings.ToLower`: `'A'..'Z'` are moved to
`'a'..'z'`, every other character is kept. -/
def asciiLower (c : Char) : Char :=
  if 'A' ≤ c ∧ c ≤ 'Z' then Char.ofNat (c.toNat + 32) else c

/-- The call `strings.ToLower(s)`: a string of ASCII characters only is
lowered by `asciiLower`; any other string is mapped character by character
through `unicode.ToLower`, the table `lowerRune`. -/
def ToLower (lowerRune : Char → Char) (s : String) : String :=
  if s.data.all (fun c => decide (c.toNat < 128)) then
    String.mk (s.data.map asciiLower)
  else
    String.mk (s.data.map lowerRune)

/-! ## The descriptor parser -/

/-- The function `parseServiceConfig`. -/
def parseServiceConfig (config : String) : Service :=
  let service : Service :=
    { Name := "", Host := "", Port := "", Protocol := "", Endpoint := "",
      Timeout := 5 * Second, MaxRetries := 30 }
  let parts := splitColon config
  if parts.length ≥ 2 then
    let service := { service with Name := parts.getD 0 "" }
    let service := { service with Host := parts.getD 1 "" }
    let service :=
      if parts.length > 2 then { service with Port := parts.getD 2 "" } else service
    let service :=
      if parts.length > 3 then { service with Protocol := parts.getD 3 "" } else service
    let service :=
      if parts.length > 4 then { service with Endpoint := parts.getD 4 "" } else service
    service
  else
    service

/-- The function `parseServices`: the descriptors of the arguments, in
order. -/
def parseServices (args : List String) : List Service :=
  args.foldl (fun services arg => services ++ [parseServiceConfig arg]) []

/-- The function `getProtocol`. -/
def getProtocol (host : String) : String :=
  if Contains host "https" then "https" else "http"

/-- The function `getEndpoint`. -/
def getEndpoint (endpoint : String) : String :=
  if endpoint ≠ "" then endpoint else "/"

/-! ## Binary64 arithmetic

`Duration.Seconds` computes in `float64`. A finite binary64 value is kept
exactly, as sign, significand and exponent; every operation rounds the exact
result to 53 significant bits, ties to even. Exponent range is not limited:
the values `formatDuration` meets lie between `1e-9` and `2^63`, far from
underflow and overflow. -/

/-- A finite binary64 value `(-1)^neg * mant * 2^exp`. -/
structure F64 where
  neg : Bool
  mant : Nat
  exp : Int
  deriving DecidableEq, Repr

/-- The loop of `log2`, on at most `fuel` halvings. -/
def log2Loop : Nat → Nat → Nat
  | 0, _ => 0
  | fuel + 1, n => if n < 2 then 0 else log2Loop fuel (n / 2) + 1

/-- The position of the highest set bit of `n`: `2^(log2 n) ≤ n < 2^(log2 n + 1)`
for `n > 0`. -/
def log2 (n : Nat) : Nat :=
  log2Loop n n

/-- Whether `n / d ≥ 2^k`. -/
def ratioGePow (n d : Nat) (k : Int) : Bool :=
  if k ≥ 0 then decide (d * 2 ^ k.toNat ≤ n) else decide (d ≤ n * 2 ^ (-k).toNat)

/-- The significand of the ratio `n / d` at exponent `e`: the integer
nearest to `n / (d * 2^e)`, ties to even. -/
def roundAt (n d : Nat) (e : Int) : Nat :=
  let N : Nat := if e ≥ 0 then n else n * 2 ^ (-e).toNat
  let D : Nat := if e ≥ 0 then d * 2 ^ e.toNat else d
  let q := N / D
  let r := N % D
  if 2 * r < D then q
  else if D < 2 * r then q + 1
  else if q % 2 = 0 then q else q + 1

/-- The binary64 nearest to the positive ratio `n / d`, ties to even, as
significand and exponent: with `2^k ≤ n / d < 2^(k + 1)` the exponent is
`k - 52`, so that the significand has 53 bits (or is `2^53`). -/
def roundRatio (n d : Nat) : Nat × Int :=
  if n = 0 ∨ d = 0 then (0, 0)
  else
    let k0 : Int := (log2 n : Int) - (log2 d : Int)
    let k : Int := if ratioGePow n d k0 then k0 else k0 - 1
    (roundAt n d (k - 52), k - 52)

/-- The conversion `float64(z)` of an integer. -/
def F64.ofInt (z : Int) : F64 :=
  let r := roundRatio z.natAbs 1
  { neg := decide (z < 0), mant := r.1, exp := r.2 }

/-- The quotient `a / b` in binary64 (`b` not zero). -/
def F64.div (a b : F64) : F64 :=
  let n := a.mant * 2 ^ (a.exp - b.exp).toNat
  let d := b.mant * 2 ^ (b.exp - a.exp).toNat
  let r := roundRatio n d
  { neg := xor a.neg b.neg, mant := r.1, exp := r.2 }

/-- The sum `a + b` in binary64. -/
def F64.add (a b : F64) : F64 :=
  let e := min a.exp b.exp
  let za : Int := (if a.neg then -1 else 1) * (a.mant * 2 ^ (a.exp - e).toNat : Nat)
  let zb : Int := (if b.neg then -1 else 1) * (b.mant * 2 ^ (b.exp - e).toNat : Nat)
  let z := za + zb
  let r := roundRatio z.natAbs 1
  { neg := decide (z < 0), mant := r.1, exp := r.2 + e }

/-- The conversion `int(x)` of a binary64: the fraction is discarded. -/
def F64.toInt (x : F64) : Int :=
  let a : Nat := if x.exp ≥ 0 then x.mant * 2 ^ x.exp.toNat else x.mant / 2 ^ (-x.exp).toNat
  if x.neg then -(a : Int) else (a : Int)

/-- The rational number a binary64 value stands for. -/
def F64.val (x : F64) : ℚ :=
  (if x.neg then -1 else 1) * (x.mant : ℚ) * (2 : ℚ) ^ x.exp

/-! ## Durations -/

/-- The method `Duration.Milliseconds`: `int64(d) / 1e6`, truncated toward
zero. -/
def Milliseconds (d : Int) : Int :=
  d.tdiv 1000000

/-- The method `Duration.Seconds`:
`float64(d / Second) + float64(d % Second) / 1e9`. -/
def Seconds (d : Int) : F64 :=
  let sec := d.tdiv Second
  let nsec := d.tmod Second
  F64.add (F64.ofInt sec) (F64.div (F64.ofInt nsec) (F64.ofInt 1000000000))

/-- The verb `%d` of `fmt.Sprintf`: an integer in decimal. -/
def fmtInt (z : Int) : String :=
  toString z

/-- The function `formatDuration`. -/
def formatDuration (d : Int) : String :=
  if d < Second then fmtInt (Milliseconds d) ++ "ms"
  else fmtInt (F64.toInt (Seconds d)) ++ "s"

/-! ## The outside world -/

/-- An observable effect of the program. -/
inductive Event where
  /-- A call `net.DialTimeout(network, address, timeout)` and whether it
  returned a connection. -/
  | dial (network address : String) (timeout : Int) (ok : Bool)
  /-- A call `client.Get(url)` with the client's timeout: `none` for a
  transport error or timeout, else the status code of the response. -/
  | get (url : String) (timeout : Int) (resp : Option Int)
  /-- A connection or a response body is closed. -/
  | close
  /-- A call `time.Sleep(d)`. -/
  | sleep (d : Int)
  /-- Text written to standard output. -/
  | out (text : String)
  deriving DecidableEq, Repr

/-- The network, the clock and the library tables: what they answer in a
world `w : σ`, and the world after the call. -/
structure Env (σ : Type) where
  /-- `net.DialTimeout`: whether the error is `nil`. -/
  dialTimeout : String → String → Int → σ → Bool × σ
  /-- `http.Client` with a timeout, `Get`: `none` when the error is not
  `nil`, else the status code. -/
  httpGet : Int → String → σ → Option Int × σ
  /-- `time.Sleep`. -/
  sleep : Int → σ → σ
  /-- The monotonic clock read by `time.Now`, in nanoseconds. -/
  now : σ → Int
  /-- `unicode.ToLower`. -/
  lowerRune : Char → Char
  /-- `color.CyanString`. -/
  cyanString : String → String
  /-- `color.GreenString`. -/
  greenString : String → String
  /-- `color.RedString`. -/
  redString : String → String
  /-- `color.YellowString`. -/
  yellowString : String → String

/-- The result of an effectful call: the value returned, the world after it
and the effects it produced, in order. -/
structure Outcome (σ α : Type) where
  ret : α
  world : σ
  events : List Event

variable {σ : Type}

/-! ## The reachability checker -/

/-- The function `checkTCP`. -/
def checkTCP (env : Env σ) (host port : String) (w : σ) : Outcome σ Bool :=
  let address := host ++ ":" ++ port
  let r := env.dialTimeout "tcp" address (2 * Second) w
  if r.1 then
    { ret := true, world := r.2,
      events := [Event.dial "tcp" address (2 * Second) true, Event.close] }
  else
    { ret := false, world := r.2, events := [Event.dial "tcp" address (2 * Second) false] }

/-- The function `checkHTTP`. -/
def checkHTTP (env : Env σ) (host port endpoint : String) (w : σ) : Outcome σ Bool :=
  let url := getProtocol host ++ "://" ++ (host ++ ":" ++ port) ++ getEndpoint endpoint
  let r := env.httpGet (2 * Second) url w
  match r.1 with
  | none => { ret := false, world := r.2, events := [Event.get url (2 * Second) none] }
  | some statusCode =>
    { ret := decide (statusCode ≥ 200) && decide (statusCode < 300), world := r.2,
      events := [Event.get url (2 * Second) (some statusCode), Event.close] }

/-- The function `checkUnix`. -/
def checkUnix (env : Env σ) (host port : String) (w : σ) : Outcome σ Bool :=
  let address := host ++ "/" ++ port
  let r := env.dialTimeout "unix" address (2 * Second) w
  if r.1 then
    { ret := true, world := r.2,
      events := [Event.dial "unix" address (2 * Second) true, Event.close] }
  else
    { ret := false, world := r.2, events := [Event.dial "unix" address (2 * Second) false] }

/-- The function `checkService`. -/
def checkService (env : Env σ) (service : Service) (w : σ) : Outcome σ Bool :=
  let p := ToLower env.lowerRune service.Protocol
  if p = "tcp" ∨ p = "" then checkTCP env service.Host service.Port w
  else if p = "http" ∨ p = "https" then
    checkHTTP env service.Host service.Port service.Endpoint w
  else if p = "unix" then checkUnix env service.Host service.Port w
  else checkTCP env service.Host service.Port w

/-! ## The poll loop -/

/-- The loop of `waitForService` with `n` iterations left. -/
def waitLoop (env : Env σ) (service : Service) : Nat → σ → Outcome σ (Bool × Bool)
  | 0, w => { ret := (false, false), world := w, events := [] }
  | n + 1, w =>
    let c := checkService env service w
    if c.ret then { ret := (true, true), world := c.world, events := c.events }
    else
      let r := waitLoop env service n (env.sleep (2 * Second) c.world)
      { ret := r.ret, world := r.world,
        events := c.events ++ [Event.sleep (2 * Second)] ++ r.events }

/-- The function `waitForService`: `i` runs from `0` while
`i < service.MaxRetries`. -/
def waitForService (env : Env σ) (service : Service) (w : σ) : Outcome σ (Bool × Bool) :=
  waitLoop env service service.MaxRetries.toNat w

/-! ## The driver -/

/-- The loop of `waitForServices` over the services left, `unavailable`
being the slice built so far. -/
def pollLoop (env : Env σ) : List Service → List Service → σ → Outcome σ (List Service)
  | [], unavailable, w => { ret := unavailable, world := w, events := [] }
  | service :: rest, unavailable, w =>
    let waiting := Event.out
      ("Waiting for " ++ service.Name ++ " (" ++ service.Host ++ ":" ++ service.Port ++ ")...\n")
    let startTime := env.now w
    let r := waitForService env service w
    let elapsed := env.now r.world - startTime
    if r.ret.1 then
      let line := Event.out
        ("  ✓ " ++ env.greenString service.Name ++ " is ready (" ++ formatDuration elapsed ++ ")\n")
      let k := pollLoop env rest unavailable r.world
      { ret := k.ret, world := k.world, events := [waiting] ++ r.events ++ [line] ++ k.events }
    else
      let line := Event.out
        ("  ✗ " ++ env.redString service.Name ++ " failed to start (" ++
          formatDuration elapsed ++ ")\n")
      let k := pollLoop env rest (unavailable ++ [service]) r.world
      { ret := k.ret, world := k.world, events := [waiting] ++ r.events ++ [line] ++ k.events }

/-- The summary line of `waitForServices`. -/
def summaryLine (ready unavailable : Int) : String :=
  "Summary: " ++ fmtInt ready ++ " services ready, " ++ fmtInt unavailable ++
    " services unavailable\n"

/-- The line of the failed list for one service. -/
def failedLine (s : Service) : String :=
  "  - " ++ s.Name ++ " (" ++ s.Host ++ ":" ++ s.Port ++ ")\n"

/-- The function `waitForServices`; the value returned is the status passed
to `os.Exit`, or `none` when the function returns. -/
def waitForServices (env : Env σ) (services : List Service) (w : σ) : Outcome σ (Option Int) :=
  let banner := Event.out (env.cyanString "\n=== SERVICE DEPENDENCY WAITER ===\n" ++ "\n")
  let l := pollLoop env services [] w
  let unavailable := l.ret
  let summary :=
    [Event.out "\n",
     Event.out (summaryLine ((services.length : Int) - (unavailable.length : Int))
       (unavailable.length : Int))]
  if unavailable.length > 0 then
    { ret := some 1, world := l.world,
      events := [banner] ++ l.events ++ summary ++
        [Event.out (env.yellowString "\nFailed services:" ++ "\n")] ++
        unavailable.map (fun s => Event.out (failedLine s)) }
  else
    { ret := none, world := l.world, events := [banner] ++ l.events ++ summary }

/-- The usage text of `main`. -/
def usage (env : Env σ) : List Event :=
  [Event.out (env.cyanString "servicewait - Smart Service Dependency Waiter" ++ "\n"),
   Event.out "\n",
   Event.out "Usage: servicewait <service1> <service2> ...\n",
   Event.out "Format: name:host[:port][protocol][endpoint]\n",
   Event.out "\n",
   Event.out "Examples:\n",
   Event.out "  servicewait db:localhost:5432:tcp\n",
   Event.out "  servicewait api:localhost:8080:http:/health\n"]

/-- The function `main` on the arguments `os.Args` (the program name
first); the value returned is the exit status of the process. -/
def main (env : Env σ) (osArgs : List String) (w : σ) : Outcome σ Int :=
  if osArgs.length < 2 then { ret := 1, world := w, events := usage env }
  else
    let services := parseServices (osArgs.drop 1)
    let r := waitForServices env services w
    match r.ret with
    | some code => { ret := code, world := r.world, events := r.events }
    | none => { ret := 0, world := r.world, events := r.events }

/-! ## Vocabulary of the specification -/

/-- A probe: a dial or an HTTP request. -/
def Event.isProbe : Event → Bool
  | Event.dial _ _ _ _ => true
  | Event.get _ _ _ => true
  | _ => false

/-- A sleep. -/
def Event.isSleep : Event → Bool
  | Event.sleep _ => true
  | _ => false

/-- Text written to standard output. -/
def Event.isOut : Event → Bool
  | Event.out _ => true
  | _ => false

/-- A probe that found the service unreachable: a dial that returned an
error, a request that returned an error or a status outside `[200, 300)`. -/
def Event.isFailedProbe : Event → Bool
  | Event.dial _ _ _ ok => !ok
  | Event.get _ _ none => true
  | Event.get _ _ (some c) => !(decide (c ≥ 200) && decide (c < 300))
  | _ => false

/-- The number of probes among the events. -/
def probeCount (evs : List Event) : Nat :=
  evs.countP Event.isProbe

/-- The number of sleeps among the events. -/
def sleepCount (evs : List Event) : Nat :=
  evs.countP Event.isSleep

/-- The time slept, in nanoseconds. -/
def sleepTotal : List Event → Int
  | [] => 0
  | Event.sleep d :: evs => d + sleepTotal evs
  | _ :: evs => sleepTotal evs

/-- The world before probe number `k` (from `0`) when `service` is probed
again and again from `w`, with a sleep of two seconds after each probe. -/
def worldAt (env : Env σ) (service : Service) : Nat → σ → σ
  | 0, w => w
  | k + 1, w => worldAt env service k (env.sleep (2 * Second) (checkService env service w).world)

/-- The outcome of probe number `k` (from `0`) of `service` from `w`. -/
def probeOutcome (env : Env σ) (service : Service) (w : σ) (k : Nat) : Bool :=
  (checkService env service (worldAt env service k w)).ret

/-- The polls of the services one after the other from `w`: each service
with the outcome of its poll loop, started in the world the previous one
left. -/
def pollSeq (env : Env σ) : List Service → σ → List (Service × Outcome σ (Bool × Bool))
  | [], _ => []
  | s :: ss, w =>
    let r := waitForService env s w
    (s, r) :: pollSeq env ss r.world

/-- The services whose poll loop ended unavailable when the services are
polled one after the other from `w`, in the order of the polls. -/
def failedOf (env : Env σ) (services : List Service) (w : σ) : List Service :=
  ((pollSeq env services w).filter (fun p => !p.2.ret.1)).map Prod.fst

/-- The events of the polls of the services one after the other from `w`. -/
def pollEvents (env : Env σ) (services : List Service) (w : σ) : List Event :=
  ((pollSeq env services w).map (fun p => p.2.events)).flatten

/-- What one call of a checker leaves in the trace: one probe, no sleep, no
output, and the probe failed exactly when the call returned `false`. -/
structure OneProbe (o : Outcome σ Bool) : Prop where
  probes : probeCount o.events = 1
  sleeps : sleepCount o.events = 0
  slept : sleepTotal o.events = 0
  failed : (o.events.countP Event.isFailedProbe) = if o.ret then 0 else 1
  noOut : o.events.filter (fun e => !e.isOut) = o.events
  noSleep : ∀ e ∈ o.events, e.isSleep = false
  nonempty : o.events ≠ []

/-- The parser as the specification words it: the fields of the string
between colons, taken by position, an absent field being empty. -/
def parseServiceConfigRef (s : String) : Service :=
  let fields := splitColon s
  if 2 ≤ fields.length then
    { Name := fields.getD 0 "", Host := fields.getD 1 "", Port := fields.getD 2 "",
      Protocol := fields.getD 3 "", Endpoint := fields.getD 4 "",
      Timeout := 5 * Second, MaxRetries := 30 }
  else
    { Name := "", Host := "", Port := "", Protocol := "", Endpoint := "",
      Timeout := 5 * Second, MaxRetries := 30 }

/-- The URL of the HTTP probe as the specification words it. -/
def urlRef (host port endpoint : String) : String :=
  (if "https".data <:+: host.data then "https" else "http") ++ "://" ++ host ++ ":" ++ port ++
    (if endpoint = "" then "/" else endpoint)

/-! ## A scripted world -/

/-- A world for examples: the number of probes made and the clock. -/
structure Script where
  probes : Nat
  clock : Int
  deriving DecidableEq, Repr

/-- In the scripted world `up:80` always accepts, `late:80` accepts from the
third probe of the run on, `web:8080` answers `200` on `/health` and `404`
elsewhere, nothing else is reachable; a probe takes a millisecond. -/
def scripted : Env Script where
  dialTimeout := fun network address _ w =>
    (decide (network = "tcp") &&
      (decide (address = "up:80") || (decide (address = "late:80") && decide (2 ≤ w.probes))),
     { probes := w.probes + 1, clock := w.clock + Millisecond })
  httpGet := fun _ url w =>
    (if url = "http://web:8080/health" then some 200
     else if url = "http://web:8080/" then some 404
     else none,
     { probes := w.probes + 1, clock := w.clock + Millisecond })
  sleep := fun d w => { w with clock := w.clock + d }
  now := fun w => w.clock
  lowerRune := id
  cyanString := id
  greenString := id
  redString := id
  yellowString := id

/-- The scripted world at the start of a run. -/
def start : Script := { probes := 0, clock := 0 }

/-! ## Strings -/

theorem splitChars_ne_nil (sep : Char) (l : List Char) : splitChars sep l ≠ [] := by
  induction l with
  | nil => simp [splitChars]
  | cons c cs ih =>
    unfold splitChars
    split
    · simp
    · split
      · simp
      · simp

/-- Joining the pieces with the separator gives the string back. -/
theorem splitChars_intercalate (sep : Char) (l : List Char) :
    List.intercalate [sep] (splitChars sep l) = l := by
  induction l with
  | nil => simp [splitChars, List.intercalate]
  | cons c cs ih =>
    unfold splitChars
    split
    · rename_i h
      cases hs : splitChars sep cs with
      | nil => exact absurd hs (splitChars_ne_nil sep cs)
      | cons p ps =>
        rw [hs] at ih
        simp only [List.intercalate, List.intersperse, List.flatten] at ih ⊢
        simp [h, ih]
    · cases hs : splitChars sep cs with
      | nil => exact absurd hs (splitChars_ne_nil sep cs)
      | cons p ps =>
        rw [hs] at ih
        cases ps with
        | nil =>
          simp only [List.intercalate, List.intersperse, List.flatten] at ih ⊢
          simpa using ih
        | cons q qs =>
          simp only [List.intercalate, List.intersperse, List.flatten] at ih ⊢
          simpa using ih

/-- No piece holds the separator. -/
theorem splitChars_no_sep (sep : Char) (l : List Char) :
    ∀ p ∈ splitChars sep l, sep ∉ p := by
  induction l with
  | nil => simp [splitChars]
  | cons c cs ih =>
    unfold splitChars
    split
    · intro p hp
      rcases List.mem_cons.1 hp with h | h
      · simp [h]
      · exact ih p h
    · rename_i hc
      cases hs : splitChars sep cs with
      | nil => exact absurd hs (splitChars_ne_nil sep cs)
      | cons q qs =>
        rw [hs] at ih
        intro p hp
        rcases List.mem_cons.1 hp with h | h
        · subst h
          intro hmem
          rcases List.mem_cons.1 hmem with h1 | h1
          · exact hc h1.symm
          · exact ih q (List.mem_cons_self _ _) h1
        · exact ih p (List.mem_cons_of_mem _ h)

theorem containsChars_iff (sub l : List Char) : containsChars sub l = true ↔ sub <:+: l := by
  induction l with
  | nil => simp [containsChars]
  | cons c cs ih =>
    simp only [containsChars, Bool.or_eq_true, ih, List.infix_cons_iff,
      List.isPrefixOf_iff_prefix]

theorem getProtocol_eq (host : String) :
    getProtocol host = if "https".data <:+: host.data then "https" else "http" := by
  unfold getProtocol Contains
  by_cases h : "https".data <:+: host.data
  · rw [if_pos h, if_pos ((containsChars_iff _ _).2 h)]
  · rw [if_neg h, if_neg (fun hc => h ((containsChars_iff _ _).1 hc))]

theorem getEndpoint_eq (endpoint : String) :
    getEndpoint endpoint = if endpoint = "" then "/" else endpoint := by
  unfold getEndpoint
  by_cases h : endpoint = "" <;> simp [h]

theorem url_eq (host port endpoint : String) :
    getProtocol host ++ "://" ++ (host ++ ":" ++ port) ++ getEndpoint endpoint =
      urlRef host port endpoint := by
  rw [getProtocol_eq, getEndpoint_eq]
  unfold urlRef
  simp only [String.append_assoc]

/-! ## The descriptor parser -/

/-- C3: for every input string, `parseServiceConfig` returns a descriptor
(it is a total function, there is no failure value) and this descriptor is
the one of the reference: with at least two fields name, host, port, protocol
and endpoint are fields 0 to 4, an absent field being empty and fields after
the fifth ignored; with fewer than two fields all five are empty; the timeout
is always 5 seconds and the retry budget always 30. -/
theorem parseServiceConfig_refines (s : String) :
    parseServiceConfig s = parseServiceConfigRef s ∧
      (parseServiceConfig s).Timeout = 5 * Second ∧
      (parseServiceConfig s).MaxRetries = 30 := by
  have key : parseServiceConfig s = parseServiceConfigRef s := by
    unfold parseServiceConfig parseServiceConfigRef
    simp only [ge_iff_le, gt_iff_lt]
    by_cases h2 : 2 ≤ (splitColon s).length
    · simp only [h2, if_true]
      by_cases h3 : 2 < (splitColon s).length
      · by_cases h4 : 3 < (splitColon s).length
        · by_cases h5 : 4 < (splitColon s).length
          · simp [h3, h4, h5]
          · simp [h3, h4, h5, List.getElem?_eq_none (Nat.le_of_not_lt h5)]
        · have h5 : ¬ 4 < (splitColon s).length := by omega
          simp [h3, h4, h5, List.getElem?_eq_none (Nat.le_of_not_lt h4),
            List.getElem?_eq_none (Nat.le_of_not_lt h5)]
      · have h4 : ¬ 3 < (splitColon s).length := by omega
        have h5 : ¬ 4 < (splitColon s).length := by omega
        simp [h3, h4, h5, List.getElem?_eq_none (Nat.le_of_not_lt h3),
          List.getElem?_eq_none (Nat.le_of_not_lt h4),
          List.getElem?_eq_none (Nat.le_of_not_lt h5)]
    · simp [h2]
  refine ⟨key, ?_, ?_⟩
  · rw [key]; unfold parseServiceConfigRef; dsimp only; split <;> rfl
  · rw [key]; unfold parseServiceConfigRef; dsimp only; split <;> rfl

/-- The usage text of `main` writes the format as
`name:host[:port][protocol][endpoint]`, protocol and endpoint following the
port without a colon; the parser takes every field between colons, so an
argument written that way has the three in its port and no protocol or
endpoint. -/
theorem parseServiceConfig_usage_format :
    (parseServiceConfig "api:localhost:8080http/health").Port = "8080http/health" ∧
      (parseServiceConfig "api:localhost:8080http/health").Protocol = "" ∧
      (parseServiceConfig "api:localhost:8080http/health").Endpoint = "" := by
  decide

theorem parseServiceConfig_maxRetries (s : String) : (parseServiceConfig s).MaxRetries = 30 := by
  unfold parseServiceConfig
  simp only [ge_iff_le, gt_iff_lt]
  split
  · split <;> split <;> split <;> rfl
  · rfl

/-- C8, as stated, fails: the string `":"` splits into two fields, both
empty, and the descriptor parsed from it has an empty name and an empty
host. -/
theorem parseServiceConfig_empty_fields :
    ¬ (∀ s : String, 2 ≤ (splitColon s).length →
        (parseServiceConfig s).Name ≠ "" ∧ (parseServiceConfig s).Host ≠ "") := by
  intro h
  have h1 := h ":" (by decide)
  exact h1.1 (by decide)

/-- C8, amended: for a string that splits into at least two fields the name
is field 0 and the host is field 1, so each of them is non-empty exactly when
that field is non-empty. -/
theorem parseServiceConfig_name_host (s : String) (h : 2 ≤ (splitColon s).length) :
    (parseServiceConfig s).Name = (splitColon s).getD 0 "" ∧
      (parseServiceConfig s).Host = (splitColon s).getD 1 "" ∧
      ((parseServiceConfig s).Name ≠ "" ↔ (splitColon s).getD 0 "" ≠ "") ∧
      ((parseServiceConfig s).Host ≠ "" ↔ (splitColon s).getD 1 "" ≠ "") := by
  have hn : (parseServiceConfig s).Name = (splitColon s).getD 0 "" := by
    unfold parseServiceConfig
    simp only [ge_iff_le, gt_iff_lt, h, if_true]
    split <;> split <;> split <;> rfl
  have hh : (parseServiceConfig s).Host = (splitColon s).getD 1 "" := by
    unfold parseServiceConfig
    simp only [ge_iff_le, gt_iff_lt, h, if_true]
    split <;> split <;> split <;> rfl
  exact ⟨hn, hh, by rw [hn], by rw [hh]⟩

/-- Witness of C8 amended: `"db:localhost:5432:tcp"`. -/
theorem parseServiceConfig_name_host_witness :
    2 ≤ (splitColon "db:localhost:5432:tcp").length ∧
      (parseServiceConfig "db:localhost:5432:tcp").Name = "db" ∧
      (parseServiceConfig "db:localhost:5432:tcp").Host = "localhost" :=
  ⟨by decide,
   (parseServiceConfig_name_host "db:localhost:5432:tcp" (by decide)).1.trans (by decide),
   (parseServiceConfig_name_host "db:localhost:5432:tcp" (by decide)).2.1.trans (by decide)⟩

/-! ## The reachability checker -/

theorem checkTCP_head (env : Env σ) (host port : String) (w : σ) :
    (checkTCP env host port w).events.head? =
        some (Event.dial "tcp" (host ++ ":" ++ port) (2 * Second)
          (env.dialTimeout "tcp" (host ++ ":" ++ port) (2 * Second) w).1) ∧
      (checkTCP env host port w).ret =
        (env.dialTimeout "tcp" (host ++ ":" ++ port) (2 * Second) w).1 := by
  unfold checkTCP
  cases h : (env.dialTimeout "tcp" (host ++ ":" ++ port) (2 * Second) w).1 <;> simp [h]

theorem checkUnix_head (env : Env σ) (host port : String) (w : σ) :
    (checkUnix env host port w).events.head? =
        some (Event.dial "unix" (host ++ "/" ++ port) (2 * Second)
          (env.dialTimeout "unix" (host ++ "/" ++ port) (2 * Second) w).1) ∧
      (checkUnix env host port w).ret =
        (env.dialTimeout "unix" (host ++ "/" ++ port) (2 * Second) w).1 := by
  unfold checkUnix
  cases h : (env.dialTimeout "unix" (host ++ "/" ++ port) (2 * Second) w).1 <;> simp [h]

theorem checkHTTP_head (env : Env σ) (host port endpoint : String) (w : σ) :
    (checkHTTP env host port endpoint w).events.head? =
      some (Event.get (urlRef host port endpoint) (2 * Second)
        (env.httpGet (2 * Second) (urlRef host port endpoint) w).1) := by
  unfold checkHTTP
  simp only [url_eq]
  cases h : (env.httpGet (2 * Second) (urlRef host port endpoint) w).1 <;> simp

theorem checkHTTP_ret (env : Env σ) (host port endpoint : String) (w : σ) :
    (checkHTTP env host port endpoint w).ret =
      match (env.httpGet (2 * Second) (urlRef host port endpoint) w).1 with
      | none => false
      | some c => decide (200 ≤ c ∧ c < 300) := by
  unfold checkHTTP
  simp only [url_eq]
  cases h : (env.httpGet (2 * Second) (urlRef host port endpoint) w).1 with
  | none => simp
  | some c => simp [Bool.decide_and]

theorem checkTCP_oneProbe (env : Env σ) (host port : String) (w : σ) :
    OneProbe (checkTCP env host port w) := by
  unfold checkTCP
  cases h : (env.dialTimeout "tcp" (host ++ ":" ++ port) (2 * Second) w).1 <;>
    constructor <;>
    simp [h, probeCount, sleepCount, sleepTotal, Event.isProbe, Event.isSleep,
      Event.isFailedProbe, Event.isOut, List.countP_cons]

theorem checkUnix_oneProbe (env : Env σ) (host port : String) (w : σ) :
    OneProbe (checkUnix env host port w) := by
  unfold checkUnix
  cases h : (env.dialTimeout "unix" (host ++ "/" ++ port) (2 * Second) w).1 <;>
    constructor <;>
    simp [h, probeCount, sleepCount, sleepTotal, Event.isProbe, Event.isSleep,
      Event.isFailedProbe, Event.isOut, List.countP_cons]

theorem checkHTTP_oneProbe (env : Env σ) (host port endpoint : String) (w : σ) :
    OneProbe (checkHTTP env host port endpoint w) := by
  unfold checkHTTP
  simp only [url_eq]
  cases h : (env.httpGet (2 * Second) (urlRef host port endpoint) w).1 with
  | none =>
    constructor <;>
      simp [probeCount, sleepCount, sleepTotal, Event.isProbe, Event.isSleep,
        Event.isFailedProbe, Event.isOut, List.countP_cons]
  | some c =>
    constructor <;>
      simp [probeCount, sleepCount, sleepTotal, Event.isProbe, Event.isSleep,
        Event.isFailedProbe, Event.isOut, List.countP_cons]
    by_cases hc : 200 ≤ c ∧ c < 300
    · simp [hc.1, hc.2]
    · by_cases h1 : 200 ≤ c
      · have h2 : ¬ c < 300 := fun h2 => hc ⟨h1, h2⟩
        simp [h1, h2]
      · simp [h1]

theorem checkService_oneProbe (env : Env σ) (service : Service) (w : σ) :
    OneProbe (checkService env service w) := by
  unfold checkService
  dsimp only
  split
  · exact checkTCP_oneProbe env _ _ w
  · split
    · exact checkHTTP_oneProbe env _ _ _ w
    · split
      · exact checkUnix_oneProbe env _ _ w
      · exact checkTCP_oneProbe env _ _ w

theorem ToLower_ascii (lowerRune : Char → Char) :
    ToLower lowerRune "TCP" = "tcp" ∧ ToLower lowerRune "Http" = "http" ∧
      ToLower lowerRune "hTTpS" = "https" ∧ ToLower lowerRune "UNIX" = "unix" ∧
      ToLower lowerRune "https" = "https" ∧ ToLower lowerRune "" = "" :=
  ⟨rfl, rfl, rfl, rfl, rfl, rfl⟩

theorem checkTCP_spec (env : Env σ) (host port : String) (w : σ) :
    (checkTCP env host port w).ret =
        (env.dialTimeout "tcp" (host ++ ":" ++ port) (2 * Second) w).1 ∧
      (checkTCP env host port w).world =
        (env.dialTimeout "tcp" (host ++ ":" ++ port) (2 * Second) w).2 ∧
      (checkTCP env host port w).events =
        Event.dial "tcp" (host ++ ":" ++ port) (2 * Second)
            (env.dialTimeout "tcp" (host ++ ":" ++ port) (2 * Second) w).1 ::
          (if (env.dialTimeout "tcp" (host ++ ":" ++ port) (2 * Second) w).1 then [Event.close]
           else []) := by
  unfold checkTCP
  cases h : (env.dialTimeout "tcp" (host ++ ":" ++ port) (2 * Second) w).1 <;> simp [h]

theorem checkUnix_spec (env : Env σ) (host port : String) (w : σ) :
    (checkUnix env host port w).ret =
        (env.dialTimeout "unix" (host ++ "/" ++ port) (2 * Second) w).1 ∧
      (checkUnix env host port w).world =
        (env.dialTimeout "unix" (host ++ "/" ++ port) (2 * Second) w).2 ∧
      (checkUnix env host port w).events =
        Event.dial "unix" (host ++ "/" ++ port) (2 * Second)
            (env.dialTimeout "unix" (host ++ "/" ++ port) (2 * Second) w).1 ::
          (if (env.dialTimeout "unix" (host ++ "/" ++ port) (2 * Second) w).1 then [Event.close]
           else []) := by
  unfold checkUnix
  cases h : (env.dialTimeout "unix" (host ++ "/" ++ port) (2 * Second) w).1 <;> simp [h]

theorem checkHTTP_spec (env : Env σ) (host port endpoint : String) (w : σ) :
    (checkHTTP env host port endpoint w).ret =
        (match (env.httpGet (2 * Second) (urlRef host port endpoint) w).1 with
         | none => false
         | some c => decide (200 ≤ c ∧ c < 300)) ∧
      (checkHTTP env host port endpoint w).world =
        (env.httpGet (2 * Second) (urlRef host port endpoint) w).2 ∧
      (checkHTTP env host port endpoint w).events =
        Event.get (urlRef host port endpoint) (2 * Second)
            (env.httpGet (2 * Second) (urlRef host port endpoint) w).1 ::
          (if (env.httpGet (2 * Second) (urlRef host port endpoint) w).1.isSome then
            [Event.close]
           else []) := by
  refine ⟨checkHTTP_ret env host port endpoint w, ?_, ?_⟩
  · unfold checkHTTP
    simp only [url_eq]
    cases h : (env.httpGet (2 * Second) (urlRef host port endpoint) w).1 <;> rfl
  · unfold checkHTTP
    simp only [url_eq]
    cases h : (env.httpGet (2 * Second) (urlRef host port endpoint) w).1 <;> simp

theorem urlRef_eq (host port endpoint : String) :
    urlRef host port endpoint =
      (if "https".data <:+: host.data then "https" else "http") ++ "://" ++ host ++ ":" ++ port ++
        (if endpoint = "" then "/" else endpoint) := rfl

/-- C4: `checkService` chooses the probe by the protocol in lower case.
For `"tcp"`, the empty string and every value other than `"http"`, `"https"`
and `"unix"` the call is one `net.DialTimeout("tcp", host:port, 2 s)`; for
`"http"` and `"https"` it is one GET of the URL built from host, port and
endpoint, reachable on a status in `[200, 300)`; for `"unix"` it is one
`net.DialTimeout("unix", host/port, 2 s)`. In each case the value returned
and the world left are those of that one call to the network, a connection or
response obtained is closed, and exactly one probe is made. -/
theorem checkService_dispatch (env : Env σ) (service : Service) (w : σ) :
    (ToLower env.lowerRune service.Protocol = "tcp" ∨
        ToLower env.lowerRune service.Protocol = "" ∨
        ToLower env.lowerRune service.Protocol ∉ ["tcp", "", "http", "https", "unix"] →
      (checkService env service w).ret =
          (env.dialTimeout "tcp" (service.Host ++ ":" ++ service.Port) (2 * Second) w).1 ∧
        (checkService env service w).world =
          (env.dialTimeout "tcp" (service.Host ++ ":" ++ service.Port) (2 * Second) w).2 ∧
        (checkService env service w).events =
          Event.dial "tcp" (service.Host ++ ":" ++ service.Port) (2 * Second)
              (env.dialTimeout "tcp" (service.Host ++ ":" ++ service.Port) (2 * Second) w).1 ::
            (if (env.dialTimeout "tcp" (service.Host ++ ":" ++ service.Port) (2 * Second) w).1
             then [Event.close] else [])) ∧
    (ToLower env.lowerRune service.Protocol = "http" ∨
        ToLower env.lowerRune service.Protocol = "https" →
      (checkService env service w).ret =
          (match (env.httpGet (2 * Second)
              ((if "https".data <:+: service.Host.data then "https" else "http") ++ "://" ++
                service.Host ++ ":" ++ service.Port ++
                (if service.Endpoint = "" then "/" else service.Endpoint)) w).1 with
           | none => false
           | some c => decide (200 ≤ c ∧ c < 300)) ∧
        (checkService env service w).world =
          (env.httpGet (2 * Second)
            ((if "https".data <:+: service.Host.data then "https" else "http") ++ "://" ++
              service.Host ++ ":" ++ service.Port ++
              (if service.Endpoint = "" then "/" else service.Endpoint)) w).2 ∧
        (checkService env service w).events =
          Event.get
              ((if "https".data <:+: service.Host.data then "https" else "http") ++ "://" ++
                service.Host ++ ":" ++ service.Port ++
                (if service.Endpoint = "" then "/" else service.Endpoint))
              (2 * Second)
              (env.httpGet (2 * Second)
                ((if "https".data <:+: service.Host.data then "https" else "http") ++ "://" ++
                  service.Host ++ ":" ++ service.Port ++
                  (if service.Endpoint = "" then "/" else service.Endpoint)) w).1 ::
            (if (env.httpGet (2 * Second)
                ((if "https".data <:+: service.Host.data then "https" else "http") ++ "://" ++
                  service.Host ++ ":" ++ service.Port ++
                  (if service.Endpoint = "" then "/" else service.Endpoint)) w).1.isSome
             then [Event.close] else [])) ∧
    (ToLower env.lowerRune service.Protocol = "unix" →
      (checkService env service w).ret =
          (env.dialTimeout "unix" (service.Host ++ "/" ++ service.Port) (2 * Second) w).1 ∧
        (checkService env service w).world =
          (env.dialTimeout "unix" (service.Host ++ "/" ++ service.Port) (2 * Second) w).2 ∧
        (checkService env service w).events =
          Event.dial "unix" (service.Host ++ "/" ++ service.Port) (2 * Second)
              (env.dialTimeout "unix" (service.Host ++ "/" ++ service.Port) (2 * Second) w).1 ::
            (if (env.dialTimeout "unix" (service.Host ++ "/" ++ service.Port) (2 * Second) w).1
             then [Event.close] else [])) ∧
    probeCount (checkService env service w).events = 1 := by
  refine ⟨?_, ?_, ?_, (checkService_oneProbe env service w).probes⟩
  · intro h
    have hd : checkService env service w = checkTCP env service.Host service.Port w := by
      unfold checkService
      rcases h with h | h | h
      · simp only [h, true_or, if_true]
      · simp only [h, or_true, if_true]
      · simp only [List.mem_cons, List.mem_singleton, List.not_mem_nil, or_false, not_or] at h
        simp only [h, or_self, if_false]
    rw [hd]
    exact checkTCP_spec env _ _ w
  · intro h
    have h1 : ¬ (ToLower env.lowerRune service.Protocol = "tcp" ∨
        ToLower env.lowerRune service.Protocol = "") := by
      rcases h with h | h <;> rw [h] <;> decide
    have hd : checkService env service w =
        checkHTTP env service.Host service.Port service.Endpoint w := by
      unfold checkService
      simp only [h1, h, if_true, if_false]
    rw [hd, ← urlRef_eq]
    exact checkHTTP_spec env _ _ _ w
  · intro h
    have hd : checkService env service w = checkUnix env service.Host service.Port w := by
      unfold checkService
      simp only [h]
      rfl
    rw [hd]
    exact checkUnix_spec env _ _ w

/-- Witness of C4 in the scripted world: protocol `"TCP"` dials `late:80`,
protocol `"Https"` requests `http://web:8080/health`, protocol `"UNIX"` dials
the socket `run/app.sock`, protocol `"grpc"` dials TCP. -/
theorem checkService_dispatch_witness :
    (checkService scripted (parseServiceConfig "c:late:80:TCP") start).events =
        Event.dial "tcp" "late:80" (2 * Second) false :: [] ∧
      (checkService scripted (parseServiceConfig "d:web:8080:Https:/health") start).events =
        Event.get "http://web:8080/health" (2 * Second) (some 200) :: [Event.close] ∧
      (checkService scripted (parseServiceConfig "u:run:app.sock:UNIX") start).events =
        Event.dial "unix" "run/app.sock" (2 * Second) false :: [] ∧
      (checkService scripted (parseServiceConfig "g:up:80:grpc") start).events =
        Event.dial "tcp" "up:80" (2 * Second) true :: [Event.close] :=
  ⟨((checkService_dispatch scripted (parseServiceConfig "c:late:80:TCP") start).1
      (by decide)).2.2.trans (by decide),
   ((checkService_dispatch scripted (parseServiceConfig "d:web:8080:Https:/health") start).2.1
      (by decide)).2.2.trans (by decide),
   ((checkService_dispatch scripted (parseServiceConfig "u:run:app.sock:UNIX") start).2.2.1
      (by decide)).2.2.trans (by decide),
   ((checkService_dispatch scripted (parseServiceConfig "g:up:80:grpc") start).1
      (by decide)).2.2.trans (by decide)⟩

/-- C5: the URL requested by the HTTP probe is the scheme, `"://"`, the host,
`":"`, the port and the path, the scheme being `"https"` exactly when
`"https"` occurs in the host and `"http"` otherwise, the path being the
endpoint, or `"/"` for an empty endpoint; the protocol of the descriptor
plays no part, so a descriptor with protocol `"https"` and host
`"example.com"` is requested at `"http://example.com:"` followed by port and
path. -/
theorem checkHTTP_url (env : Env σ) (host port endpoint : String) (w : σ) :
    (checkHTTP env host port endpoint w).events.head? =
        some (Event.get
          ((if "https".data <:+: host.data then "https" else "http") ++ "://" ++ host ++ ":" ++
            port ++ (if endpoint = "" then "/" else endpoint))
          (2 * Second)
          (env.httpGet (2 * Second) (urlRef host port endpoint) w).1) ∧
      (∀ name timeout retries,
        (checkService env
          { Name := name, Host := "example.com", Port := port, Protocol := "https",
            Endpoint := endpoint, Timeout := timeout, MaxRetries := retries } w).events.head? =
        some (Event.get
          ("http://example.com:" ++ port ++ (if endpoint = "" then "/" else endpoint))
          (2 * Second)
          (env.httpGet (2 * Second) (urlRef "example.com" port endpoint) w).1)) := by
  refine ⟨checkHTTP_head env host port endpoint w, ?_⟩
  intro name timeout retries
  have hd : checkService env
      { Name := name, Host := "example.com", Port := port, Protocol := "https",
        Endpoint := endpoint, Timeout := timeout, MaxRetries := retries } w =
      checkHTTP env "example.com" port endpoint w := by
    unfold checkService
    simp only [(ToLower_ascii env.lowerRune).2.2.2.2.1]
    rfl
  rw [hd, checkHTTP_head]
  have hu : urlRef "example.com" port endpoint =
      "http://example.com:" ++ port ++ (if endpoint = "" then "/" else endpoint) := by
    unfold urlRef
    have hn : ¬ ("https".data <:+: "example.com".data) := by
      rw [← containsChars_iff]; decide
    rw [if_neg hn]
    rfl
  rw [← hu]

/-- C6: the HTTP probe reports unreachable when the request ends in an error,
and for a response with status code `c` it reports reachable exactly when
`200 ≤ c < 300`: so `200` is reachable, `404` and `500` are not. -/
theorem checkHTTP_status (env : Env σ) (host port endpoint : String) (w : σ) :
    ((checkHTTP env host port endpoint w).ret =
        match (env.httpGet (2 * Second) (urlRef host port endpoint) w).1 with
        | none => false
        | some c => decide (200 ≤ c ∧ c < 300)) ∧
      ((checkHTTP env host port endpoint w).ret = true ↔
        ∃ c, (env.httpGet (2 * Second) (urlRef host port endpoint) w).1 = some c ∧
          200 ≤ c ∧ c < 300) := by
  refine ⟨checkHTTP_ret env host port endpoint w, ?_⟩
  rw [checkHTTP_ret]
  cases h : (env.httpGet (2 * Second) (urlRef host port endpoint) w).1 with
  | none => simp
  | some c => simp

/-! ## The poll loop -/

theorem sleepTotal_append (a b : List Event) :
    sleepTotal (a ++ b) = sleepTotal a + sleepTotal b := by
  induction a with
  | nil => simp [sleepTotal]
  | cons e es ih =>
    cases e <;> simp [sleepTotal, ih, add_assoc]

theorem probeOutcome_zero (env : Env σ) (service : Service) (w : σ) :
    probeOutcome env service w 0 = (checkService env service w).ret := rfl

theorem probeOutcome_succ (env : Env σ) (service : Service) (w : σ) (j : Nat) :
    probeOutcome env service w (j + 1) =
      probeOutcome env service (env.sleep (2 * Second) (checkService env service w).world) j :=
  rfl

theorem waitLoop_zero (env : Env σ) (service : Service) (w : σ) :
    waitLoop env service 0 w = { ret := (false, false), world := w, events := [] } := rfl

theorem waitLoop_succ_true (env : Env σ) (service : Service) (n : Nat) (w : σ)
    (h : (checkService env service w).ret = true) :
    waitLoop env service (n + 1) w =
      { ret := (true, true), world := (checkService env service w).world,
        events := (checkService env service w).events } := by
  simp [waitLoop, h]

theorem waitLoop_succ_false (env : Env σ) (service : Service) (n : Nat) (w : σ)
    (h : (checkService env service w).ret = false) :
    waitLoop env service (n + 1) w =
      { ret := (waitLoop env service n
            (env.sleep (2 * Second) (checkService env service w).world)).ret,
        world := (waitLoop env service n
            (env.sleep (2 * Second) (checkService env service w).world)).world,
        events := (checkService env service w).events ++ [Event.sleep (2 * Second)] ++
          (waitLoop env service n
            (env.sleep (2 * Second) (checkService env service w).world)).events } := by
  simp [waitLoop, h]

/-- The loop when none of its `n` probes succeeds. -/
theorem waitLoop_fail (env : Env σ) (service : Service) :
    ∀ (n : Nat) (w : σ), (∀ j, j < n → probeOutcome env service w j = false) →
      (waitLoop env service n w).ret = (false, false) ∧
      probeCount (waitLoop env service n w).events = n ∧
      sleepCount (waitLoop env service n w).events = n ∧
      sleepTotal (waitLoop env service n w).events = 2 * Second * (n : Int) ∧
      (0 < n → (waitLoop env service n w).events.getLast? = some (Event.sleep (2 * Second))) := by
  intro n
  induction n with
  | zero =>
    intro w _
    simp [waitLoop_zero, probeCount, sleepCount, sleepTotal]
  | succ n ih =>
    intro w h
    have h0 : (checkService env service w).ret = false := h 0 (Nat.succ_pos n)
    have hrest : ∀ j, j < n → probeOutcome env service
        (env.sleep (2 * Second) (checkService env service w).world) j = false := by
      intro j hj
      rw [← probeOutcome_succ]
      exact h (j + 1) (Nat.succ_lt_succ hj)
    obtain ⟨r1, r2, r3, r4, r5⟩ := ih _ hrest
    have c := checkService_oneProbe env service w
    rw [waitLoop_succ_false env service n w h0]
    refine ⟨r1, ?_, ?_, ?_, ?_⟩
    · have hp := c.probes
      unfold probeCount at hp r2 ⊢
      simp only [List.countP_append, hp, r2, List.countP_cons, List.countP_nil, Event.isProbe]
      simp
      omega
    · have hs := c.sleeps
      unfold sleepCount at hs r3 ⊢
      simp only [List.countP_append, hs, r3, List.countP_cons, List.countP_nil, Event.isSleep]
      simp
      omega
    · simp only [sleepTotal_append, c.slept, r4, sleepTotal]
      push_cast
      ring
    · intro _
      rcases Nat.eq_zero_or_pos n with hn | hn
      · subst hn
        simp [waitLoop_zero]
      · rw [List.getLast?_append, r5 hn]
        rfl

/-- The loop when probe number `k` (from `0`) is the first to succeed and
`k < n`. -/
theorem waitLoop_success (env : Env σ) (service : Service) :
    ∀ (n : Nat) (w : σ) (k : Nat), k < n →
      (∀ j, j < k → probeOutcome env service w j = false) →
      probeOutcome env service w k = true →
      (waitLoop env service n w).ret = (true, true) ∧
      probeCount (waitLoop env service n w).events = k + 1 ∧
      sleepCount (waitLoop env service n w).events = k ∧
      sleepTotal (waitLoop env service n w).events = 2 * Second * (k : Int) ∧
      (∀ e, (waitLoop env service n w).events.getLast? = some e → e.isSleep = false) := by
  intro n
  induction n with
  | zero => intro w k hk; exact absurd hk (Nat.not_lt_zero k)
  | succ n ih =>
    intro w k hk hf hs
    have c := checkService_oneProbe env service w
    cases k with
    | zero =>
      have h0 : (checkService env service w).ret = true := hs
      rw [waitLoop_succ_true env service n w h0]
      refine ⟨rfl, c.probes, c.sleeps, ?_, ?_⟩
      · simp [c.slept]
      · intro e he
        exact c.noSleep e (List.mem_of_getLast?_eq_some he)
    | succ k =>
      have h0 : (checkService env service w).ret = false := hf 0 (Nat.succ_pos k)
      have hrest : ∀ j, j < k → probeOutcome env service
          (env.sleep (2 * Second) (checkService env service w).world) j = false := by
        intro j hj
        rw [← probeOutcome_succ]
        exact hf (j + 1) (Nat.succ_lt_succ hj)
      have hsk : probeOutcome env service
          (env.sleep (2 * Second) (checkService env service w).world) k = true := by
        rw [← probeOutcome_succ]; exact hs
      obtain ⟨r1, r2, r3, r4, r5⟩ := ih _ k (Nat.lt_of_succ_lt_succ hk) hrest hsk
      rw [waitLoop_succ_false env service n w h0]
      refine ⟨r1, ?_, ?_, ?_, ?_⟩
      · have hp := c.probes
        unfold probeCount at hp r2 ⊢
        simp only [List.countP_append, hp, r2, List.countP_cons, List.countP_nil, Event.isProbe]
        simp
        omega
      · have hs := c.sleeps
        unfold sleepCount at hs r3 ⊢
        simp only [List.countP_append, hs, r3, List.countP_cons, List.countP_nil, Event.isSleep]
        simp
        omega
      · simp only [sleepTotal_append, c.slept, r4, sleepTotal]
        push_cast
        ring
      · intro e he
        have hne : (waitLoop env service n
            (env.sleep (2 * Second) (checkService env service w).world)).events ≠ [] := by
          intro hnil
          rw [hnil] at r2
          simp [probeCount] at r2
        obtain ⟨e', he'⟩ := Option.ne_none_iff_exists'.1
          (fun hnone => hne (List.getLast?_eq_none_iff.1 hnone))
        rw [List.getLast?_append, he'] at he
        have hee : e' = e := Option.some.inj he
        rw [← hee]
        exact r5 e' he'

/-- Whatever the probes answer: the loop sleeps once per failed probe, two
seconds each time, makes at most `n` probes and writes nothing. -/
theorem waitLoop_sleeps (env : Env σ) (service : Service) :
    ∀ (n : Nat) (w : σ),
      sleepCount (waitLoop env service n w).events =
        (waitLoop env service n w).events.countP Event.isFailedProbe ∧
      sleepTotal (waitLoop env service n w).events =
        2 * Second * (sleepCount (waitLoop env service n w).events : Int) ∧
      (∀ e ∈ (waitLoop env service n w).events, e.isSleep = true → e = Event.sleep (2 * Second)) ∧
      (waitLoop env service n w).events.filter (fun e => !e.isOut) =
        (waitLoop env service n w).events ∧
      probeCount (waitLoop env service n w).events ≤ n := by
  intro n
  induction n with
  | zero =>
    intro w
    simp [waitLoop_zero, probeCount, sleepCount, sleepTotal]
  | succ n ih =>
    intro w
    have c := checkService_oneProbe env service w
    cases h0 : (checkService env service w).ret with
    | true =>
      rw [waitLoop_succ_true env service n w h0]
      refine ⟨?_, ?_, ?_, c.noOut, ?_⟩
      · dsimp only
        rw [c.sleeps, c.failed, h0]; rfl
      · dsimp only
        rw [c.sleeps, c.slept]; simp
      · intro e he hs
        rw [c.noSleep e he] at hs
        exact absurd hs (by decide)
      · dsimp only
        rw [c.probes]; omega
    | false =>
      obtain ⟨r1, r2, r3, r4, r5⟩ :=
        ih (env.sleep (2 * Second) (checkService env service w).world)
      rw [waitLoop_succ_false env service n w h0]
      refine ⟨?_, ?_, ?_, ?_, ?_⟩
      · have hs := c.sleeps
        have hf := c.failed
        rw [h0] at hf
        unfold sleepCount at hs r1 ⊢
        simp only [List.countP_append, hs, hf, r1, List.countP_cons, List.countP_nil,
          Event.isSleep, Event.isFailedProbe]
        simp
      · have hs := c.sleeps
        unfold sleepCount at hs r2 ⊢
        simp only [sleepTotal_append, c.slept, r2, sleepTotal, List.countP_append, hs,
          List.countP_cons, List.countP_nil, Event.isSleep]
        push_cast
        simp
        ring
      · intro e he hs
        simp only [List.mem_append, List.mem_singleton] at he
        rcases he with (he | he) | he
        · rw [c.noSleep e he] at hs
          exact absurd hs (by decide)
        · exact he
        · exact r3 e he hs
      · simp only [List.filter_append, c.noOut, r4]
        simp [Event.isOut]
      · have hp := c.probes
        unfold probeCount at hp r5 ⊢
        simp only [List.countP_append, hp, List.countP_cons, List.countP_nil, Event.isProbe]
        simp
        omega

/-- C2: for a descriptor with retry budget `m`, if probe number `N` is the
first to succeed and `N ≤ m`, `waitForService` makes exactly `N` probes and
reports available; if none of the first `m` probes succeeds it makes exactly
`m` probes and reports unavailable; a parsed descriptor has budget 30. Each
call of the checker makes exactly one probe, so the probes count the calls. -/
theorem waitForService_probes (env : Env σ) (service : Service) (w : σ) (m : Nat)
    (hm : service.MaxRetries = (m : Int)) :
    (∀ N, 1 ≤ N → N ≤ m →
      (∀ j, j < N - 1 → probeOutcome env service w j = false) →
      probeOutcome env service w (N - 1) = true →
      (waitForService env service w).ret = (true, true) ∧
        probeCount (waitForService env service w).events = N) ∧
    ((∀ j, j < m → probeOutcome env service w j = false) →
      (waitForService env service w).ret = (false, false) ∧
        probeCount (waitForService env service w).events = m) ∧
    (∀ s, (parseServiceConfig s).MaxRetries = 30) := by
  have hn : service.MaxRetries.toNat = m := by rw [hm]; rfl
  refine ⟨?_, ?_, parseServiceConfig_maxRetries⟩
  · intro N h1 hN hf hs
    have r := waitLoop_success env service m w (N - 1) (by omega) hf hs
    unfold waitForService
    rw [hn]
    refine ⟨r.1, ?_⟩
    rw [r.2.1]
    omega
  · intro hf
    have r := waitLoop_fail env service m w hf
    unfold waitForService
    rw [hn]
    exact ⟨r.1, r.2.1⟩

/-- Witness of C2 in the scripted world: `late:80` accepts the third probe of
a budget of 30, `down:81` never accepts and is probed 30 times. -/
theorem waitForService_probes_witness :
    ((waitForService scripted (parseServiceConfig "c:late:80") start).ret = (true, true) ∧
      probeCount (waitForService scripted (parseServiceConfig "c:late:80") start).events = 3) ∧
    ((waitForService scripted (parseServiceConfig "b:down:81") start).ret = (false, false) ∧
      probeCount (waitForService scripted (parseServiceConfig "b:down:81") start).events = 30) :=
  ⟨(waitForService_probes scripted (parseServiceConfig "c:late:80") start 30 (by decide)).1 3
      (by decide) (by decide) (by decide) (by decide),
   (waitForService_probes scripted (parseServiceConfig "b:down:81") start 30 (by decide)).2.1
      (by decide)⟩

/-- C9: in `waitForService` every sleep lasts two seconds and there is one
sleep per failed probe; when probe number `N ≤ m` is the first to succeed the
loop has slept `N - 1` times, `(N - 1) × 2 s` in all, and its last effect is
not a sleep; when all `m` probes fail it has slept `m` times, `m × 2 s` in
all, the last effect being a sleep; for a parsed descriptor that is 60 s. -/
theorem waitForService_sleeps (env : Env σ) (service : Service) (w : σ) (m : Nat)
    (hm : service.MaxRetries = (m : Int)) :
    (∀ e ∈ (waitForService env service w).events,
      e.isSleep = true → e = Event.sleep (2 * Second)) ∧
    sleepCount (waitForService env service w).events =
      (waitForService env service w).events.countP Event.isFailedProbe ∧
    (∀ N, 1 ≤ N → N ≤ m →
      (∀ j, j < N - 1 → probeOutcome env service w j = false) →
      probeOutcome env service w (N - 1) = true →
      sleepCount (waitForService env service w).events = N - 1 ∧
        sleepTotal (waitForService env service w).events = ((N : Int) - 1) * (2 * Second) ∧
        ∀ e, (waitForService env service w).events.getLast? = some e → e.isSleep = false) ∧
    ((∀ j, j < m → probeOutcome env service w j = false) →
      sleepCount (waitForService env service w).events = m ∧
        sleepTotal (waitForService env service w).events = (m : Int) * (2 * Second) ∧
        (0 < m →
          (waitForService env service w).events.getLast? = some (Event.sleep (2 * Second)))) ∧
    (∀ s, (∀ j, j < 30 → probeOutcome env (parseServiceConfig s) w j = false) →
      sleepTotal (waitForService env (parseServiceConfig s) w).events = 60 * Second) := by
  have hn : service.MaxRetries.toNat = m := by rw [hm]; rfl
  have g := waitLoop_sleeps env service m w
  refine ⟨?_, ?_, ?_, ?_, ?_⟩
  · unfold waitForService; rw [hn]; exact g.2.2.1
  · unfold waitForService; rw [hn]; exact g.1
  · intro N h1 hN hf hs
    have r := waitLoop_success env service m w (N - 1) (by omega) hf hs
    unfold waitForService
    rw [hn]
    refine ⟨r.2.2.1, ?_, r.2.2.2.2⟩
    rw [r.2.2.2.1]
    have hc : ((N - 1 : Nat) : Int) = (N : Int) - 1 := by omega
    rw [hc]
    ring
  · intro hf
    have r := waitLoop_fail env service m w hf
    unfold waitForService
    rw [hn]
    refine ⟨r.2.2.1, ?_, r.2.2.2.2⟩
    rw [r.2.2.2.1]
    ring
  · intro s hf
    have r := waitLoop_fail env (parseServiceConfig s) 30 w hf
    unfold waitForService
    rw [parseServiceConfig_maxRetries]
    have h30 : (30 : Int).toNat = 30 := rfl
    rw [h30, r.2.2.2.1]
    push_cast
    ring

/-- Witness of C9 in the scripted world: `late:80` accepts the third probe
after two sleeps, four seconds in all; `down:81` costs thirty sleeps. -/
theorem waitForService_sleeps_witness :
    (sleepCount (waitForService scripted (parseServiceConfig "c:late:80") start).events = 3 - 1 ∧
      sleepTotal (waitForService scripted (parseServiceConfig "c:late:80") start).events =
        ((3 : Nat) - 1 : Int) * (2 * Second) ∧
      ∀ e, (waitForService scripted (parseServiceConfig "c:late:80") start).events.getLast? =
        some e → e.isSleep = false) ∧
    (sleepCount (waitForService scripted (parseServiceConfig "b:down:81") start).events = 30 ∧
      sleepTotal (waitForService scripted (parseServiceConfig "b:down:81") start).events =
        ((30 : Nat) : Int) * (2 * Second) ∧
      (0 < 30 → (waitForService scripted (parseServiceConfig "b:down:81") start).events.getLast? =
        some (Event.sleep (2 * Second)))) :=
  ⟨(waitForService_sleeps scripted (parseServiceConfig "c:late:80") start 30 (by decide)).2.2.1 3
      (by decide) (by decide) (by decide) (by decide),
   (waitForService_sleeps scripted (parseServiceConfig "b:down:81") start 30 (by decide)).2.2.2.1
      (by decide)⟩

/-! ## The driver -/

theorem foldl_append_singleton {α β : Type} (f : α → β) (l : List α) (init : List β) :
    l.foldl (fun acc a => acc ++ [f a]) init = init ++ l.map f := by
  induction l generalizing init with
  | nil => simp
  | cons a as ih => simp [ih]

theorem parseServices_eq_map (args : List String) :
    parseServices args = args.map parseServiceConfig := by
  unfold parseServices
  rw [foldl_append_singleton]
  simp

theorem pollSeq_map_fst (env : Env σ) :
    ∀ (services : List Service) (w : σ), (pollSeq env services w).map Prod.fst = services := by
  intro services
  induction services with
  | nil => intro w; rfl
  | cons s ss ih => intro w; simp [pollSeq, ih]

theorem pollSeq_length (env : Env σ) (services : List Service) (w : σ) :
    (pollSeq env services w).length = services.length := by
  rw [← List.length_map (pollSeq env services w) Prod.fst, pollSeq_map_fst]

theorem failedOf_cons (env : Env σ) (s : Service) (ss : List Service) (w : σ) :
    failedOf env (s :: ss) w =
      (if (waitForService env s w).ret.1 then [] else [s]) ++
        failedOf env ss (waitForService env s w).world := by
  unfold failedOf
  cases h : (waitForService env s w).ret.1 <;> simp [pollSeq, h, List.filter_cons]

theorem pollEvents_cons (env : Env σ) (s : Service) (ss : List Service) (w : σ) :
    pollEvents env (s :: ss) w =
      (waitForService env s w).events ++ pollEvents env ss (waitForService env s w).world := by
  simp [pollEvents, pollSeq]

theorem failedOf_sublist (env : Env σ) :
    ∀ (services : List Service) (w : σ), (failedOf env services w).Sublist services := by
  intro services
  induction services with
  | nil => intro w; simp [failedOf, pollSeq]
  | cons s ss ih =>
    intro w
    rw [failedOf_cons]
    cases h : (waitForService env s w).ret.1
    · simpa using ih _
    · simpa using (ih (waitForService env s w).world).cons s

theorem failedOf_length_le (env : Env σ) (services : List Service) (w : σ) :
    (failedOf env services w).length ≤ services.length :=
  (failedOf_sublist env services w).length_le

theorem waitForService_noOut (env : Env σ) (service : Service) (w : σ) :
    (waitForService env service w).events.filter (fun e => !e.isOut) =
      (waitForService env service w).events :=
  (waitLoop_sleeps env service service.MaxRetries.toNat w).2.2.2.1

/-- The loop of the driver: the slice it returns is the slice it was given
followed by the services whose poll ended unavailable, and its effects other
than output are those of the polls, one after the other. -/
theorem pollLoop_spec (env : Env σ) :
    ∀ (services unavailable : List Service) (w : σ),
      (pollLoop env services unavailable w).ret = unavailable ++ failedOf env services w ∧
      (pollLoop env services unavailable w).events.filter (fun e => !e.isOut) =
        pollEvents env services w := by
  intro services
  induction services with
  | nil =>
    intro unavailable w
    simp [pollLoop, failedOf, pollEvents, pollSeq]
  | cons s ss ih =>
    intro unavailable w
    rw [failedOf_cons, pollEvents_cons]
    cases h : (waitForService env s w).ret.1 with
    | true =>
      have r := ih unavailable (waitForService env s w).world
      simp only [pollLoop, h, if_true]
      refine ⟨by rw [r.1]; simp, ?_⟩
      simp only [List.filter_append, waitForService_noOut, r.2]
      simp [Event.isOut]
    | false =>
      have r := ih (unavailable ++ [s]) (waitForService env s w).world
      simp only [pollLoop, h, Bool.false_eq_true, if_false]
      refine ⟨by rw [r.1]; simp, ?_⟩
      simp only [List.filter_append, waitForService_noOut, r.2]
      simp [Event.isOut]

theorem drop_one_eq_nil_iff (osArgs : List String) :
    osArgs.drop 1 = [] ↔ osArgs.length < 2 := by
  cases osArgs with
  | nil => simp
  | cons a as =>
    cases as with
    | nil => simp
    | cons b bs => simp

theorem usage_all_out (env : Env σ) : ∀ e ∈ usage env, e.isOut = true := by
  intro e he
  simp only [usage, List.mem_cons, List.mem_singleton, List.not_mem_nil, or_false] at he
  rcases he with h | h | h | h | h | h | h | h <;> rw [h] <;> rfl

theorem failedOf_eq_nil_iff (env : Env σ) (services : List Service) (w : σ) :
    failedOf env services w = [] ↔ ∀ p ∈ pollSeq env services w, p.2.ret.1 = true := by
  unfold failedOf
  rw [List.map_eq_nil_iff, List.filter_eq_nil_iff]
  simp

/-- The status and the effects of `waitForServices`. -/
theorem waitForServices_spec (env : Env σ) (services : List Service) (w : σ) :
    (waitForServices env services w).ret =
        (if failedOf env services w = [] then none else some 1) ∧
      (waitForServices env services w).events =
        ([Event.out (env.cyanString "\n=== SERVICE DEPENDENCY WAITER ===\n" ++ "\n")] ++
          (pollLoop env services [] w).events) ++
        [Event.out "\n",
         Event.out (summaryLine
           ((services.length : Int) - ((failedOf env services w).length : Int))
           ((failedOf env services w).length : Int))] ++
        (if failedOf env services w = [] then []
         else Event.out (env.yellowString "\nFailed services:" ++ "\n") ::
           (failedOf env services w).map (fun s => Event.out (failedLine s))) := by
  have hl := (pollLoop_spec env services [] w).1
  rw [List.nil_append] at hl
  unfold waitForServices
  dsimp only
  rw [hl]
  by_cases hf : failedOf env services w = []
  · have hlen : ¬ (failedOf env services w).length > 0 := by rw [hf]; simp
    rw [if_neg hlen, if_pos hf, if_pos hf]
    simp
  · rw [if_pos (List.length_pos.2 hf), if_neg hf, if_neg hf]
    simp

/-- The exit status and the effects of `main` when there are arguments. -/
theorem main_run (env : Env σ) (osArgs : List String) (w : σ) (h : ¬ osArgs.length < 2) :
    (main env osArgs w).ret =
        (if failedOf env ((osArgs.drop 1).map parseServiceConfig) w = [] then 0 else 1) ∧
      (main env osArgs w).events =
        (waitForServices env ((osArgs.drop 1).map parseServiceConfig) w).events := by
  have hs := waitForServices_spec env ((osArgs.drop 1).map parseServiceConfig) w
  unfold main
  rw [if_neg h]
  dsimp only
  rw [parseServices_eq_map]
  by_cases hf : failedOf env ((osArgs.drop 1).map parseServiceConfig) w = []
  · rw [if_pos hf] at hs
    rw [if_pos hf]
    generalize waitForServices env ((osArgs.drop 1).map parseServiceConfig) w = o at hs ⊢
    obtain ⟨r, ww, evs⟩ := o
    simp only at hs
    rw [hs.1]
    exact ⟨rfl, rfl⟩
  · rw [if_neg hf] at hs
    rw [if_neg hf]
    generalize waitForServices env ((osArgs.drop 1).map parseServiceConfig) w = o at hs ⊢
    obtain ⟨r, ww, evs⟩ := o
    simp only at hs
    rw [hs.1]
    exact ⟨rfl, rfl⟩

theorem filter_out_map {α : Type} (f : α → String) (l : List α) :
    (l.map (fun a => Event.out (f a))).filter (fun e => !e.isOut) = [] := by
  induction l with
  | nil => rfl
  | cons a as ih => simp [List.filter_cons, Event.isOut]

theorem waitForServices_polls (env : Env σ) (services : List Service) (w : σ) :
    (waitForServices env services w).events.filter (fun e => !e.isOut) =
      pollEvents env services w := by
  rw [(waitForServices_spec env services w).2]
  simp only [List.filter_append, (pollLoop_spec env services [] w).2]
  by_cases hf : failedOf env services w = []
  · simp [hf, Event.isOut]
  · simp [hf, Event.isOut, List.filter_cons]

theorem usage_probeCount (env : Env σ) : probeCount (usage env) = 0 := by
  simp [usage, probeCount, Event.isProbe]

/-- C1: the exit status of the process. With no service argument it is 1,
the usage text, given line by line, is all that is written and no probe is
made; when the poll loop of some descriptor ends unavailable it is 1; it is 0
exactly when there is an argument and the poll loop of every descriptor ends
available. The polls are those the program makes: its effects other than
output are the effects of the polls of the parsed descriptors, one after the
other. -/
theorem main_exit_status (env : Env σ) (osArgs : List String) (w : σ) :
    (osArgs.drop 1 = [] →
      (main env osArgs w).ret = 1 ∧
        (main env osArgs w).events =
          [Event.out (env.cyanString "servicewait - Smart Service Dependency Waiter" ++ "\n"),
           Event.out "\n",
           Event.out "Usage: servicewait <service1> <service2> ...\n",
           Event.out "Format: name:host[:port][protocol][endpoint]\n",
           Event.out "\n",
           Event.out "Examples:\n",
           Event.out "  servicewait db:localhost:5432:tcp\n",
           Event.out "  servicewait api:localhost:8080:http:/health\n"] ∧
        probeCount (main env osArgs w).events = 0 ∧
        (∀ e ∈ (main env osArgs w).events, e.isOut = true) ∧
        (main env osArgs w).world = w) ∧
    (osArgs.drop 1 ≠ [] →
      (main env osArgs w).events.filter (fun e => !e.isOut) =
        pollEvents env (parseServices (osArgs.drop 1)) w) ∧
    ((∃ p ∈ pollSeq env (parseServices (osArgs.drop 1)) w, p.2.ret.1 = false) →
      (main env osArgs w).ret = 1) ∧
    ((main env osArgs w).ret = 0 ↔
      osArgs.drop 1 ≠ [] ∧
        ∀ p ∈ pollSeq env (parseServices (osArgs.drop 1)) w, p.2.ret.1 = true) := by
  rw [parseServices_eq_map]
  have hempty : osArgs.drop 1 = [] → (main env osArgs w).ret = 1 ∧
      (main env osArgs w).events = usage env ∧ (main env osArgs w).world = w := by
    intro h0
    have hlt := (drop_one_eq_nil_iff osArgs).1 h0
    unfold main
    rw [if_pos hlt]
    exact ⟨rfl, rfl, rfl⟩
  have hrun : osArgs.drop 1 ≠ [] →
      (main env osArgs w).ret =
          (if failedOf env ((osArgs.drop 1).map parseServiceConfig) w = [] then 0 else 1) ∧
        (main env osArgs w).events =
          (waitForServices env ((osArgs.drop 1).map parseServiceConfig) w).events := by
    intro h1
    exact main_run env osArgs w (fun hlt => h1 ((drop_one_eq_nil_iff osArgs).2 hlt))
  refine ⟨?_, ?_, ?_, ?_⟩
  · intro h0
    obtain ⟨a, b, c⟩ := hempty h0
    refine ⟨a, ?_, ?_, ?_, c⟩
    · rw [b]; rfl
    · rw [b]; exact usage_probeCount env
    · rw [b]; exact usage_all_out env
  · intro h1
    rw [(hrun h1).2]
    exact waitForServices_polls env _ w
  · rintro ⟨p, hp, hfalse⟩
    have hne : osArgs.drop 1 ≠ [] := by
      intro h0
      rw [h0] at hp
      simp [pollSeq] at hp
    have hf : failedOf env ((osArgs.drop 1).map parseServiceConfig) w ≠ [] := by
      intro hnil
      have := (failedOf_eq_nil_iff env _ w).1 hnil p hp
      rw [hfalse] at this
      exact absurd this (by decide)
    rw [(hrun hne).1, if_neg hf]
  · constructor
    · intro hret
      by_cases h0 : osArgs.drop 1 = []
      · rw [(hempty h0).1] at hret
        exact absurd hret (by decide)
      · refine ⟨h0, ?_⟩
        rw [(hrun h0).1] at hret
        by_cases hf : failedOf env ((osArgs.drop 1).map parseServiceConfig) w = []
        · exact (failedOf_eq_nil_iff env _ w).1 hf
        · rw [if_neg hf] at hret
          exact absurd hret (by decide)
    · rintro ⟨h0, hall⟩
      rw [(hrun h0).1, if_pos ((failedOf_eq_nil_iff env _ w).2 hall)]

/-- Witness of C1 in the scripted world: no argument gives status 1 and no
probe, an unreachable service gives status 1, reachable services give 0. -/
theorem main_exit_status_witness :
    ((main scripted ["servicewait"] start).ret = 1 ∧
      (main scripted ["servicewait"] start).events =
        [Event.out (scripted.cyanString "servicewait - Smart Service Dependency Waiter" ++ "\n"),
         Event.out "\n",
         Event.out "Usage: servicewait <service1> <service2> ...\n",
         Event.out "Format: name:host[:port][protocol][endpoint]\n",
         Event.out "\n",
         Event.out "Examples:\n",
         Event.out "  servicewait db:localhost:5432:tcp\n",
         Event.out "  servicewait api:localhost:8080:http:/health\n"] ∧
      probeCount (main scripted ["servicewait"] start).events = 0 ∧
      (∀ e ∈ (main scripted ["servicewait"] start).events, e.isOut = true) ∧
      (main scripted ["servicewait"] start).world = start) ∧
    (main scripted ["servicewait", "a:up:80", "b:down:81"] start).ret = 1 ∧
    (main scripted ["servicewait", "a:up:80", "d:web:8080:http:/health"] start).ret = 0 :=
  ⟨(main_exit_status scripted ["servicewait"] start).1 (by decide),
   (main_exit_status scripted ["servicewait", "a:up:80", "b:down:81"] start).2.2.1
     ⟨(parseServiceConfig "b:down:81",
        waitForService scripted (parseServiceConfig "b:down:81")
          (waitForService scripted (parseServiceConfig "a:up:80") start).world),
      by simp [parseServices_eq_map, pollSeq], by decide⟩,
   (main_exit_status scripted ["servicewait", "a:up:80", "d:web:8080:http:/health"] start).2.2.2.2
     ⟨by decide, by
       intro p hp
       simp only [parseServices_eq_map, List.drop_succ_cons, List.drop_zero, List.map_cons,
         List.map_nil, pollSeq, List.mem_cons, List.mem_singleton, List.not_mem_nil,
         or_false] at hp
       rcases hp with h | h <;> rw [h] <;> decide⟩⟩

/-- C7: with at least one argument the driver polls the parsed descriptors
once each in input order; the run ends with an empty line, the summary
`Summary: R services ready, U services unavailable` and, when some poll
failed, the heading and one line `  - name (host:port)` per failed service,
where the failed services are the sublist, in input order, of the descriptors
whose poll loop ended unavailable, `U` is their number and `R` the number of
descriptors less `U`, so that `R + U` is the number of descriptors. With two
descriptors of which one fails the summary is
`1 services ready, 1 services unavailable`. -/
theorem main_report (env : Env σ) (osArgs : List String) (w : σ) (h : osArgs.drop 1 ≠ []) :
    parseServices (osArgs.drop 1) = (osArgs.drop 1).map parseServiceConfig ∧
    (pollSeq env (parseServices (osArgs.drop 1)) w).map Prod.fst =
      parseServices (osArgs.drop 1) ∧
    (main env osArgs w).events.filter (fun e => !e.isOut) =
      ((pollSeq env (parseServices (osArgs.drop 1)) w).map (fun p => p.2.events)).flatten ∧
    failedOf env (parseServices (osArgs.drop 1)) w =
      ((pollSeq env (parseServices (osArgs.drop 1)) w).filter (fun p => !p.2.ret.1)).map
        Prod.fst ∧
    (failedOf env (parseServices (osArgs.drop 1)) w).Sublist (parseServices (osArgs.drop 1)) ∧
    (∃ pre, (main env osArgs w).events =
      pre ++
        [Event.out "\n",
         Event.out ("Summary: " ++
           toString (((parseServices (osArgs.drop 1)).length : Int) -
             ((failedOf env (parseServices (osArgs.drop 1)) w).length : Int)) ++
           " services ready, " ++
           toString ((failedOf env (parseServices (osArgs.drop 1)) w).length : Int) ++
           " services unavailable\n")] ++
        (if failedOf env (parseServices (osArgs.drop 1)) w = [] then []
         else Event.out (env.yellowString "\nFailed services:" ++ "\n") ::
           (failedOf env (parseServices (osArgs.drop 1)) w).map
             (fun s => Event.out ("  - " ++ s.Name ++ " (" ++ s.Host ++ ":" ++ s.Port ++ ")\n")))) ∧
    (((parseServices (osArgs.drop 1)).length : Int) -
        ((failedOf env (parseServices (osArgs.drop 1)) w).length : Int)) +
      ((failedOf env (parseServices (osArgs.drop 1)) w).length : Int) =
        ((parseServices (osArgs.drop 1)).length : Int) ∧
    0 ≤ ((parseServices (osArgs.drop 1)).length : Int) -
        ((failedOf env (parseServices (osArgs.drop 1)) w).length : Int) ∧
    (∀ a b, parseServices (osArgs.drop 1) = [a, b] →
      (failedOf env (parseServices (osArgs.drop 1)) w).length = 1 →
      ∃ pre f, failedOf env (parseServices (osArgs.drop 1)) w = [f] ∧ (f = a ∨ f = b) ∧
        (main env osArgs w).events =
          pre ++
            [Event.out "\n",
             Event.out "Summary: 1 services ready, 1 services unavailable\n",
             Event.out (env.yellowString "\nFailed services:" ++ "\n"),
             Event.out ("  - " ++ f.Name ++ " (" ++ f.Host ++ ":" ++ f.Port ++ ")\n")]) := by
  have hrun := main_run env osArgs w (fun hlt => h ((drop_one_eq_nil_iff osArgs).2 hlt))
  have hle := failedOf_length_le env (parseServices (osArgs.drop 1)) w
  have hev : (main env osArgs w).events =
      ([Event.out (env.cyanString "\n=== SERVICE DEPENDENCY WAITER ===\n" ++ "\n")] ++
        (pollLoop env (parseServices (osArgs.drop 1)) [] w).events) ++
        [Event.out "\n",
         Event.out ("Summary: " ++
           toString (((parseServices (osArgs.drop 1)).length : Int) -
             ((failedOf env (parseServices (osArgs.drop 1)) w).length : Int)) ++
           " services ready, " ++
           toString ((failedOf env (parseServices (osArgs.drop 1)) w).length : Int) ++
           " services unavailable\n")] ++
        (if failedOf env (parseServices (osArgs.drop 1)) w = [] then []
         else Event.out (env.yellowString "\nFailed services:" ++ "\n") ::
           (failedOf env (parseServices (osArgs.drop 1)) w).map
             (fun s => Event.out ("  - " ++ s.Name ++ " (" ++ s.Host ++ ":" ++ s.Port ++ ")\n"))) := by
    rw [hrun.2, parseServices_eq_map]
    exact (waitForServices_spec env _ w).2
  refine ⟨parseServices_eq_map _, pollSeq_map_fst env _ w, ?_, rfl,
    failedOf_sublist env _ w, ⟨_, hev⟩, by ring, by omega, ?_⟩
  · rw [hrun.2, parseServices_eq_map]
    exact waitForServices_polls env _ w
  · intro a b hab h1
    obtain ⟨f, hf⟩ := List.length_eq_one.1 h1
    have hsub := failedOf_sublist env (parseServices (osArgs.drop 1)) w
    have hmem : f ∈ parseServices (osArgs.drop 1) :=
      hsub.subset (by rw [hf]; exact List.mem_singleton_self f)
    rw [hab] at hmem
    have hfab : f = a ∨ f = b := by
      simpa using hmem
    refine ⟨[Event.out (env.cyanString "\n=== SERVICE DEPENDENCY WAITER ===\n" ++ "\n")] ++
      (pollLoop env (parseServices (osArgs.drop 1)) [] w).events, f, hf, hfab, ?_⟩
    rw [hev, hf, hab]
    simp only [List.length_cons, List.length_nil, List.map_cons, List.map_nil]
    rw [if_neg (List.cons_ne_nil f [])]
    simp only [List.append_assoc, List.cons_append, List.nil_append]
    rfl

/-- Witness of C7 in the scripted world. On a reachable and an unreachable
service the failed list holds the unreachable one only and the summary is
`1 services ready, 1 services unavailable`; on two reachable services and an
unreachable one the run ends with `2 services ready, 1 services unavailable`
and the line of the unreachable one. -/
theorem main_report_witness :
    failedOf scripted (parseServices (["servicewait", "a:up:80", "b:down:81"].drop 1)) start =
        [parseServiceConfig "b:down:81"] ∧
      (∃ pre f,
        failedOf scripted (parseServices (["servicewait", "a:up:80", "b:down:81"].drop 1))
          start = [f] ∧
        (f = parseServiceConfig "a:up:80" ∨ f = parseServiceConfig "b:down:81") ∧
        (main scripted ["servicewait", "a:up:80", "b:down:81"] start).events =
          pre ++
            [Event.out "\n",
             Event.out "Summary: 1 services ready, 1 services unavailable\n",
             Event.out (scripted.yellowString "\nFailed services:" ++ "\n"),
             Event.out ("  - " ++ f.Name ++ " (" ++ f.Host ++ ":" ++ f.Port ++ ")\n")]) ∧
      (main scripted ["servicewait", "a:up:80", "b:down:81"] start).events.getLast? =
        some (Event.out "  - b (down:81)\n") ∧
      (main scripted ["servicewait", "a:up:80", "b:down:81", "c:late:80"] start).events.drop 71 =
        [Event.out "\n",
         Event.out "Summary: 2 services ready, 1 services unavailable\n",
         Event.out "\nFailed services:\n",
         Event.out "  - b (down:81)\n"] :=
  ⟨by decide,
   (main_report scripted ["servicewait", "a:up:80", "b:down:81"] start (by decide)).2.2.2.2.2.2.2.2
     (parseServiceConfig "a:up:80") (parseServiceConfig "b:down:81") (by decide) (by decide),
   by decide,
   by decide⟩

/-! ## Durations -/

/-- Below one second `formatDuration` prints the whole milliseconds. -/
theorem formatDuration_ms (d : Int) (h0 : 0 ≤ d) (h1 : d < Second) :
    formatDuration d = fmtInt (d / Millisecond) ++ "ms" := by
  unfold formatDuration Milliseconds Millisecond
  rw [if_pos h1, Int.tdiv_eq_ediv h0 (by decide)]

/-! ### Binary64 rounding -/

/-- The loop of `log2` finds the highest set bit when the fuel is at least
the number. -/
theorem log2Loop_spec : ∀ (fuel n : Nat), 0 < n → n ≤ fuel →
    2 ^ log2Loop fuel n ≤ n ∧ n < 2 ^ (log2Loop fuel n + 1) := by
  intro fuel
  induction fuel with
  | zero => intro n h0 h1; omega
  | succ fuel ih =>
    intro n h0 h1
    unfold log2Loop
    by_cases h2 : n < 2
    · rw [if_pos h2]
      have : n = 1 := by omega
      subst this
      simp
    · rw [if_neg h2]
      obtain ⟨a, b⟩ := ih (n / 2) (by omega) (by omega)
      rw [pow_succ] at b
      rw [pow_succ, pow_succ, pow_succ]
      generalize 2 ^ log2Loop fuel (n / 2) = t at a b ⊢
      omega

theorem log2_spec (n : Nat) (h : 0 < n) : 2 ^ log2 n ≤ n ∧ n < 2 ^ (log2 n + 1) :=
  log2Loop_spec n n h (Nat.le_refl n)

theorem two_zpow_pos (e : Int) : (0 : ℚ) < 2 ^ e := zpow_pos (by norm_num) e

/-- The scaled numerator and denominator of `roundAt` stand for `n / d / 2^e`. -/
theorem scaled_ratio (n d : Nat) (hd : 0 < d) (e : Int) :
    ((if e ≥ 0 then n else n * 2 ^ (-e).toNat : Nat) : ℚ) /
        ((if e ≥ 0 then d * 2 ^ e.toNat else d : Nat) : ℚ) * 2 ^ e = (n : ℚ) / d := by
  have hd' : (d : ℚ) ≠ 0 := by exact_mod_cast hd.ne'
  by_cases he : e ≥ 0
  · rw [if_pos he, if_pos he]
    obtain ⟨t, rfl⟩ := Int.eq_ofNat_of_zero_le he
    simp only [Int.toNat_ofNat, zpow_natCast]
    push_cast
    field_simp
    ring
  · rw [if_neg he, if_neg he]
    obtain ⟨t, ht⟩ := Int.eq_ofNat_of_zero_le (show 0 ≤ -e by omega)
    have he' : e = -(t : Int) := by omega
    rw [ht, he']
    simp only [Int.toNat_ofNat, zpow_neg, zpow_natCast]
    push_cast
    field_simp
    ring

theorem scaled_den_pos (d : Nat) (hd : 0 < d) (e : Int) :
    0 < (if e ≥ 0 then d * 2 ^ e.toNat else d : Nat) := by
  split
  · exact Nat.mul_pos hd (pow_pos (by decide) _)
  · exact hd


theorem roundAt_bounds (n d : Nat) (e : Int) (hd : 0 < d) :
    (if e ≥ 0 then n else n * 2 ^ (-e).toNat : Nat) / (if e ≥ 0 then d * 2 ^ e.toNat else d : Nat)
        ≤ roundAt n d e ∧
      2 * roundAt n d e * (if e ≥ 0 then d * 2 ^ e.toNat else d : Nat) ≤
        2 * (if e ≥ 0 then n else n * 2 ^ (-e).toNat : Nat) +
          (if e ≥ 0 then d * 2 ^ e.toNat else d : Nat) := by
  have hD := scaled_den_pos d hd e
  unfold roundAt
  generalize (if e ≥ 0 then n else n * 2 ^ (-e).toNat : Nat) = N at *
  generalize (if e ≥ 0 then d * 2 ^ e.toNat else d : Nat) = D at *
  dsimp only
  have hdm := Nat.div_add_mod N D
  have hlt := Nat.mod_lt N hD
  generalize N / D = q at *
  generalize N % D = r at *
  have hqD : D * q + r = N := hdm
  split
  · refine ⟨Nat.le_refl q, ?_⟩
    nlinarith
  · split
    · refine ⟨Nat.le_succ q, ?_⟩
      nlinarith
    · split
      · refine ⟨Nat.le_refl q, ?_⟩
        nlinarith
      · refine ⟨Nat.le_succ q, ?_⟩
        have : D = 2 * r := by omega
        nlinarith

/-- The rounded value is at most half a unit above the ratio. -/
theorem roundAt_le (n d : Nat) (e : Int) (hd : 0 < d) :
    (roundAt n d e : ℚ) * 2 ^ e ≤ (n : ℚ) / d + 2 ^ e / 2 := by
  have hb := (roundAt_bounds n d e hd).2
  have hs := scaled_ratio n d hd e
  have hD := scaled_den_pos d hd e
  generalize (if e ≥ 0 then n else n * 2 ^ (-e).toNat : Nat) = N at *
  generalize (if e ≥ 0 then d * 2 ^ e.toNat else d : Nat) = D at *
  have hDq : (0 : ℚ) < D := by exact_mod_cast hD
  have hbq : 2 * (roundAt n d e : ℚ) * D ≤ 2 * N + D := by exact_mod_cast hb
  have hp := two_zpow_pos e
  have hm : (roundAt n d e : ℚ) ≤ (N : ℚ) / D + 1 / 2 := by
    rw [← sub_le_iff_le_add, le_div_iff₀ hDq]
    nlinarith
  calc (roundAt n d e : ℚ) * 2 ^ e ≤ ((N : ℚ) / D + 1 / 2) * 2 ^ e :=
        mul_le_mul_of_nonneg_right hm hp.le
    _ = (N : ℚ) / D * 2 ^ e + 2 ^ e / 2 := by ring
    _ = (n : ℚ) / d + 2 ^ e / 2 := by rw [hs]

/-- A multiple of the unit that is below the ratio is below the rounded
value. -/
theorem roundAt_ge (n d : Nat) (e : Int) (hd : 0 < d) (j : Nat)
    (hj : (j : ℚ) * 2 ^ e ≤ (n : ℚ) / d) : j ≤ roundAt n d e := by
  have hb := (roundAt_bounds n d e hd).1
  have hs := scaled_ratio n d hd e
  have hD := scaled_den_pos d hd e
  generalize (if e ≥ 0 then n else n * 2 ^ (-e).toNat : Nat) = N at *
  generalize (if e ≥ 0 then d * 2 ^ e.toNat else d : Nat) = D at *
  have hDq : (0 : ℚ) < D := by exact_mod_cast hD
  have hp := two_zpow_pos e
  rw [← hs] at hj
  have h1 : (j : ℚ) ≤ (N : ℚ) / D := le_of_mul_le_mul_right hj hp
  rw [le_div_iff₀ hDq] at h1
  have h2 : j * D ≤ N := by exact_mod_cast h1
  exact Nat.le_trans ((Nat.le_div_iff_mul_le hD).2 h2) hb


theorem ratioGePow_le (n d : Nat) (hd : 0 < d) (k : Int) (h : ratioGePow n d k = true) :
    (2 : ℚ) ^ k ≤ (n : ℚ) / d := by
  have hd' : (0 : ℚ) < d := by exact_mod_cast hd
  unfold ratioGePow at h
  by_cases hk : k ≥ 0
  · rw [if_pos hk] at h
    obtain ⟨t, rfl⟩ := Int.eq_ofNat_of_zero_le hk
    simp only [Int.toNat_ofNat, decide_eq_true_eq] at h
    rw [zpow_natCast, le_div_iff₀ hd']
    have : ((d * 2 ^ t : Nat) : ℚ) ≤ n := by exact_mod_cast h
    push_cast at this
    linarith
  · rw [if_neg hk] at h
    obtain ⟨t, ht⟩ := Int.eq_ofNat_of_zero_le (show 0 ≤ -k by omega)
    have hk' : k = -(t : Int) := by omega
    rw [ht] at h
    simp only [Int.toNat_ofNat, decide_eq_true_eq] at h
    have h2 : (d : ℚ) ≤ n * 2 ^ t := by exact_mod_cast h
    have hp : (0 : ℚ) < 2 ^ t := pow_pos (by norm_num) t
    rw [hk', zpow_neg, zpow_natCast, le_div_iff₀ hd', inv_mul_le_iff₀ hp]
    linarith

/-- The exponent chosen by `roundRatio` puts the ratio at or above
`2^52` units, and the significand is the ratio rounded at that exponent. -/
theorem roundRatio_exp (n d : Nat) (hn : 0 < n) (hd : 0 < d) :
    (2 : ℚ) ^ ((roundRatio n d).2 + 52) ≤ (n : ℚ) / d ∧
      (roundRatio n d).1 = roundAt n d (roundRatio n d).2 := by
  have hd' : (0 : ℚ) < d := by exact_mod_cast hd
  unfold roundRatio
  rw [if_neg (by omega)]
  dsimp only
  refine ⟨?_, rfl⟩
  rw [sub_add_cancel]
  split
  · rename_i h
    exact ratioGePow_le n d hd _ h
  · have ha := (log2_spec n hn).1
    have hb := (log2_spec d hd).2
    have haq : (2 : ℚ) ^ log2 n ≤ n := by exact_mod_cast ha
    have hbq : (d : ℚ) ≤ 2 ^ (log2 d + 1) := by exact_mod_cast hb.le
    have he : ((log2 n : Int) - (log2 d : Int) - 1) = (log2 n : Int) - ((log2 d + 1 : Nat) : Int) := by
      push_cast; ring
    rw [he, zpow_sub₀ (by norm_num), zpow_natCast, zpow_natCast,
      div_le_div_iff₀ (pow_pos (by norm_num) _) hd']
    exact mul_le_mul haq hbq hd'.le (by positivity)

/-- A ratio that is a whole number of units is its own rounding. -/
theorem roundAt_exact (n d : Nat) (e : Int) (hd : 0 < d) (j : Nat)
    (hj : (n : ℚ) / d = (j : ℚ) * 2 ^ e) : roundAt n d e = j := by
  have h1 := roundAt_ge n d e hd j hj.ge
  have h2 := roundAt_le n d e hd
  have hp := two_zpow_pos e
  rw [hj] at h2
  have h3 : (roundAt n d e : ℚ) ≤ j + 1 / 2 := by
    have : (roundAt n d e : ℚ) * 2 ^ e ≤ ((j : ℚ) + 1 / 2) * 2 ^ e := by linarith
    exact le_of_mul_le_mul_right this hp
  have h4 : (roundAt n d e : ℚ) < j + 1 := by linarith
  have h5 : roundAt n d e < j + 1 := by exact_mod_cast h4
  omega

/-- An integer below `2^53` converts to binary64 exactly. -/
theorem ofInt_val (z : Int) (h0 : 0 ≤ z) (h1 : z < 2 ^ 53) :
    (F64.ofInt z).neg = false ∧ (F64.ofInt z).val = (z : ℚ) ∧
      ((F64.ofInt z).mant = 0 ↔ z = 0) := by
  obtain ⟨n, rfl⟩ := Int.eq_ofNat_of_zero_le h0
  have hneg : (F64.ofInt (n : Int)).neg = false := by
    unfold F64.ofInt
    simp
  rcases Nat.eq_zero_or_pos n with hn | hn
  · subst hn
    refine ⟨hneg, ?_, ?_⟩
    · simp [F64.val, F64.ofInt, roundRatio]
    · simp [F64.ofInt, roundRatio]
  · have hr := roundRatio_exp n 1 hn (by decide)
    have hnq : (n : ℚ) < 2 ^ (53 : Int) := by
      have h1' : (n : ℚ) < (2 : ℚ) ^ (53 : Nat) := by exact_mod_cast h1
      rw [show (53 : Int) = ((53 : Nat) : Int) from rfl, zpow_natCast]
      exact h1'
    have hexp : (roundRatio n 1).2 ≤ 0 := by
      have h2 : (2 : ℚ) ^ ((roundRatio n 1).2 + 52) < 2 ^ (53 : Int) := by
        have := hr.1
        simp only [Nat.cast_one, div_one] at this
        exact lt_of_le_of_lt this hnq
      have := (zpow_lt_zpow_iff_right₀ (by norm_num : (1 : ℚ) < 2)).1 h2
      omega
    obtain ⟨t, ht⟩ := Int.eq_ofNat_of_zero_le (show 0 ≤ -(roundRatio n 1).2 by omega)
    have he : (roundRatio n 1).2 = -(t : Int) := by omega
    have hp : (0 : ℚ) < 2 ^ t := pow_pos (by norm_num) t
    have hm : (roundRatio n 1).1 = n * 2 ^ t := by
      rw [hr.2]
      apply roundAt_exact n 1 _ (by decide)
      rw [he, zpow_neg, zpow_natCast]
      push_cast
      field_simp
    have hmant : (F64.ofInt (n : Int)).mant = n * 2 ^ t := by
      unfold F64.ofInt
      simpa using hm
    have hexp' : (F64.ofInt (n : Int)).exp = -(t : Int) := by
      unfold F64.ofInt
      simpa using he
    refine ⟨hneg, ?_, ?_⟩
    · unfold F64.val
      rw [hneg, hmant, hexp', zpow_neg, zpow_natCast]
      push_cast
      field_simp
    · rw [hmant]
      have : 0 < n * 2 ^ t := Nat.mul_pos hn (pow_pos (by decide) t)
      constructor
      · intro h; omega
      · intro h; omega


theorem pow_toNat_ratio (u : Int) :
    (2 : ℚ) ^ u.toNat / 2 ^ (-u).toNat = 2 ^ u := by
  by_cases hu : 0 ≤ u
  · obtain ⟨t, rfl⟩ := Int.eq_ofNat_of_zero_le hu
    have h0 : (-(t : Int)).toNat = 0 := by omega
    rw [h0, Int.toNat_ofNat, zpow_natCast]
    simp
  · obtain ⟨t, ht⟩ := Int.eq_ofNat_of_zero_le (show 0 ≤ -u by omega)
    have hu' : u = -(t : Int) := by omega
    have h0 : u.toNat = 0 := by omega
    rw [h0, ht, Int.toNat_ofNat, hu', zpow_neg, zpow_natCast]
    simp

theorem pow_toNat_mul (u v : Int) (h : v ≤ u) :
    (2 : ℚ) ^ (u - v).toNat * 2 ^ v = 2 ^ u := by
  obtain ⟨t, ht⟩ := Int.eq_ofNat_of_zero_le (show 0 ≤ u - v by omega)
  rw [ht, Int.toNat_ofNat, ← zpow_natCast, ← ht, ← zpow_add₀ (by norm_num)]
  congr 1
  ring

theorem val_nonneg (x : F64) (h : x.neg = false) : x.val = (x.mant : ℚ) * 2 ^ x.exp := by
  unfold F64.val
  rw [h]
  simp

/-- The quotient of two non-negative binary64 values is at most the exact
quotient enlarged by `2^(-53)` of itself. -/
theorem div_val_le (a b : F64) (ha : a.neg = false) (hb : b.neg = false) (hbm : 0 < b.mant) :
    (F64.div a b).neg = false ∧ 0 ≤ (F64.div a b).val ∧
      (F64.div a b).val ≤ a.val / b.val * (1 + 2 ^ (-53 : Int)) := by
  have hneg : (F64.div a b).neg = false := by
    unfold F64.div
    simp [ha, hb]
  have hval := val_nonneg _ hneg
  have hd : 0 < b.mant * 2 ^ (b.exp - a.exp).toNat := Nat.mul_pos hbm (pow_pos (by decide) _)
  have hbq : (0 : ℚ) < b.mant := by exact_mod_cast hbm
  have hx : ((a.mant * 2 ^ (a.exp - b.exp).toNat : Nat) : ℚ) /
      ((b.mant * 2 ^ (b.exp - a.exp).toNat : Nat) : ℚ) = a.val / b.val := by
    rw [val_nonneg a ha, val_nonneg b hb]
    have h1 := pow_toNat_ratio (a.exp - b.exp)
    rw [show -(a.exp - b.exp) = b.exp - a.exp by ring] at h1
    rw [zpow_sub₀ (by norm_num)] at h1
    have hp1 : (0 : ℚ) < 2 ^ (a.exp - b.exp).toNat := pow_pos (by norm_num) _
    have hp2 : (0 : ℚ) < 2 ^ (b.exp - a.exp).toNat := pow_pos (by norm_num) _
    have hp3 := two_zpow_pos a.exp
    have hp4 := two_zpow_pos b.exp
    push_cast
    rw [div_eq_div_iff (by positivity) (by positivity)] at h1 ⊢
    calc (a.mant : ℚ) * 2 ^ (a.exp - b.exp).toNat * (b.mant * 2 ^ b.exp)
        = a.mant * b.mant * (2 ^ (a.exp - b.exp).toNat * 2 ^ b.exp) := by ring
      _ = a.mant * b.mant * (2 ^ a.exp * 2 ^ (b.exp - a.exp).toNat) := by rw [h1]
      _ = a.mant * 2 ^ a.exp * (b.mant * 2 ^ (b.exp - a.exp).toNat) := by ring
  have hmant : (F64.div a b).mant =
      (roundRatio (a.mant * 2 ^ (a.exp - b.exp).toNat) (b.mant * 2 ^ (b.exp - a.exp).toNat)).1 := rfl
  have hexp : (F64.div a b).exp =
      (roundRatio (a.mant * 2 ^ (a.exp - b.exp).toNat) (b.mant * 2 ^ (b.exp - a.exp).toNat)).2 := rfl
  have hnn : 0 ≤ (F64.div a b).val := by
    rw [hval]
    exact mul_nonneg (Nat.cast_nonneg _) (two_zpow_pos _).le
  refine ⟨hneg, hnn, ?_⟩
  rcases Nat.eq_zero_or_pos a.mant with h0 | hpos
  · have hz : (F64.div a b).mant = 0 := by
      rw [hmant, h0]
      simp [roundRatio]
    rw [hval, hz, val_nonneg a ha, h0]
    simp
  · have hn : 0 < a.mant * 2 ^ (a.exp - b.exp).toNat := Nat.mul_pos hpos (pow_pos (by decide) _)
    have hr := roundRatio_exp _ _ hn hd
    have hle := roundAt_le (a.mant * 2 ^ (a.exp - b.exp).toNat)
      (b.mant * 2 ^ (b.exp - a.exp).toNat) (F64.div a b).exp hd
    rw [hexp] at hle
    rw [← hr.2, hx] at hle
    have hlow := hr.1
    rw [hx, zpow_add₀ (by norm_num)] at hlow
    rw [hval, hmant, hexp]
    have h52 : (2 : ℚ) ^ (52 : Int) = 4503599627370496 := by norm_num
    have h53 : (2 : ℚ) ^ (-53 : Int) = 1 / 9007199254740992 := by
      rw [zpow_neg]; norm_num
    rw [h52] at hlow
    rw [h53]
    linarith

theorem add_nonneg_eq (a b : F64) (ha : a.neg = false) (hb : b.neg = false) :
    F64.add a b =
      { neg := false,
        mant := (roundRatio (a.mant * 2 ^ (a.exp - min a.exp b.exp).toNat +
          b.mant * 2 ^ (b.exp - min a.exp b.exp).toNat) 1).1,
        exp := (roundRatio (a.mant * 2 ^ (a.exp - min a.exp b.exp).toNat +
          b.mant * 2 ^ (b.exp - min a.exp b.exp).toNat) 1).2 + min a.exp b.exp } := by
  unfold F64.add
  simp only [ha, hb, Bool.false_eq_true, if_false, one_mul]
  have hz : ((a.mant * 2 ^ (a.exp - min a.exp b.exp).toNat : Nat) : Int) +
      ((b.mant * 2 ^ (b.exp - min a.exp b.exp).toNat : Nat) : Int) =
      ((a.mant * 2 ^ (a.exp - min a.exp b.exp).toNat +
        b.mant * 2 ^ (b.exp - min a.exp b.exp).toNat : Nat) : Int) := by
    push_cast; rfl
  rw [hz, Int.natAbs_ofNat]
  have hnot : ¬ (((a.mant * 2 ^ (a.exp - min a.exp b.exp).toNat +
        b.mant * 2 ^ (b.exp - min a.exp b.exp).toNat : Nat) : Int) < 0) := by omega
  simp only [hnot, decide_False]

/-- The sum of two non-negative binary64 values, the first positive: its
unit is at most `2^(-52)` of the exact sum, it exceeds the exact sum by at
most half a unit, and no multiple of the unit lies between it and the exact
sum. -/
theorem add_spec (a b : F64) (ha : a.neg = false) (hb : b.neg = false) (ham : 0 < a.mant) :
    (F64.add a b).neg = false ∧
      (2 : ℚ) ^ ((F64.add a b).exp + 52) ≤ a.val + b.val ∧
      ((F64.add a b).mant : ℚ) * 2 ^ (F64.add a b).exp ≤
        a.val + b.val + 2 ^ (F64.add a b).exp / 2 ∧
      ∀ j : Nat, (j : ℚ) * 2 ^ (F64.add a b).exp ≤ a.val + b.val → j ≤ (F64.add a b).mant := by
  rw [add_nonneg_eq a b ha hb]
  dsimp only
  generalize hzn : a.mant * 2 ^ (a.exp - min a.exp b.exp).toNat +
    b.mant * 2 ^ (b.exp - min a.exp b.exp).toNat = zn
  have hpos : 0 < zn := by
    have : 0 < a.mant * 2 ^ (a.exp - min a.exp b.exp).toNat :=
      Nat.mul_pos ham (pow_pos (by decide) _)
    omega
  have hX : (zn : ℚ) * 2 ^ (min a.exp b.exp) = a.val + b.val := by
    rw [← hzn, val_nonneg a ha, val_nonneg b hb]
    push_cast
    have h1 := pow_toNat_mul a.exp (min a.exp b.exp) (min_le_left _ _)
    have h2 := pow_toNat_mul b.exp (min a.exp b.exp) (min_le_right _ _)
    calc ((a.mant : ℚ) * 2 ^ (a.exp - min a.exp b.exp).toNat +
          b.mant * 2 ^ (b.exp - min a.exp b.exp).toNat) * 2 ^ (min a.exp b.exp)
        = a.mant * (2 ^ (a.exp - min a.exp b.exp).toNat * 2 ^ (min a.exp b.exp)) +
          b.mant * (2 ^ (b.exp - min a.exp b.exp).toNat * 2 ^ (min a.exp b.exp)) := by ring
      _ = a.mant * 2 ^ a.exp + b.mant * 2 ^ b.exp := by rw [h1, h2]
  have hr := roundRatio_exp zn 1 hpos (by decide)
  have hle := roundAt_le zn 1 (roundRatio zn 1).2 (by decide)
  rw [← hr.2] at hle
  have hlow := hr.1
  simp only [Nat.cast_one, div_one] at hle hlow
  have hp0 := two_zpow_pos (min a.exp b.exp)
  refine ⟨rfl, ?_, ?_, ?_⟩
  · rw [← hX, show (roundRatio zn 1).2 + min a.exp b.exp + 52 =
      ((roundRatio zn 1).2 + 52) + min a.exp b.exp by ring, zpow_add₀ (by norm_num)]
    exact mul_le_mul_of_nonneg_right hlow hp0.le
  · rw [← hX, zpow_add₀ (by norm_num)]
    have := mul_le_mul_of_nonneg_right hle hp0.le
    calc ((roundRatio zn 1).1 : ℚ) * (2 ^ (roundRatio zn 1).2 * 2 ^ (min a.exp b.exp))
        = ((roundRatio zn 1).1 : ℚ) * 2 ^ (roundRatio zn 1).2 * 2 ^ (min a.exp b.exp) := by ring
      _ ≤ ((zn : ℚ) + 2 ^ (roundRatio zn 1).2 / 2) * 2 ^ (min a.exp b.exp) := this
      _ = (zn : ℚ) * 2 ^ (min a.exp b.exp) +
          2 ^ (roundRatio zn 1).2 * 2 ^ (min a.exp b.exp) / 2 := by ring
  · intro j hj
    rw [hr.2]
    apply roundAt_ge zn 1 _ (by decide)
    rw [← hX, zpow_add₀ (by norm_num)] at hj
    simp only [Nat.cast_one, div_one]
    have : (j : ℚ) * 2 ^ (roundRatio zn 1).2 * 2 ^ (min a.exp b.exp) ≤
        (zn : ℚ) * 2 ^ (min a.exp b.exp) := by linarith
    exact le_of_mul_le_mul_right this hp0


/-- Truncating a sum that lies between a natural number and its successor,
the successor being more than half a unit away, gives that number. -/
theorem toInt_add (a b : F64) (ha : a.neg = false) (hb : b.neg = false) (ham : 0 < a.mant)
    (sec K : Nat) (h1 : (sec : ℚ) ≤ a.val + b.val) (h2 : a.val + b.val < 2 ^ K)
    (hK : K ≤ 52) (h3 : a.val + b.val + 2 ^ ((K : Int) - 54) < sec + 1) :
    F64.toInt (F64.add a b) = (sec : Int) := by
  obtain ⟨hneg, hlow, hle, hge⟩ := add_spec a b ha hb ham
  have hE : (F64.add a b).exp + 52 < (K : Int) := by
    have : (2 : ℚ) ^ ((F64.add a b).exp + 52) < 2 ^ (K : Int) := by
      rw [zpow_natCast]
      exact lt_of_le_of_lt hlow h2
    exact (zpow_lt_zpow_iff_right₀ (by norm_num : (1 : ℚ) < 2)).1 this
  obtain ⟨t, ht⟩ := Int.eq_ofNat_of_zero_le (show 0 ≤ -(F64.add a b).exp by omega)
  have he : (F64.add a b).exp = -(t : Int) := by omega
  have hp : (0 : ℚ) < 2 ^ t := pow_pos (by norm_num) t
  have hpe : (2 : ℚ) ^ (F64.add a b).exp * 2 ^ t = 1 := by
    rw [he, zpow_neg, zpow_natCast]
    field_simp
  have hlo : sec * 2 ^ t ≤ (F64.add a b).mant := by
    apply hge
    push_cast
    rw [mul_assoc, mul_comm ((2 : ℚ) ^ t), hpe, mul_one]
    exact h1
  have hhalf : (2 : ℚ) ^ (F64.add a b).exp / 2 ≤ 2 ^ ((K : Int) - 54) := by
    have : (2 : ℚ) ^ (F64.add a b).exp / 2 = 2 ^ ((F64.add a b).exp - 1) := by
      rw [zpow_sub_one₀ (by norm_num)]
      ring
    rw [this]
    exact zpow_le_zpow_right₀ (by norm_num) (by omega)
  have hhi : (F64.add a b).mant < (sec + 1) * 2 ^ t := by
    have h4 : ((F64.add a b).mant : ℚ) * 2 ^ (F64.add a b).exp < sec + 1 := by linarith
    have h5 : ((F64.add a b).mant : ℚ) * 2 ^ (F64.add a b).exp * 2 ^ t < (sec + 1) * 2 ^ t :=
      mul_lt_mul_of_pos_right h4 hp
    rw [mul_assoc, hpe, mul_one] at h5
    exact_mod_cast h5
  have hdiv : (F64.add a b).mant / 2 ^ t = sec := Nat.div_eq_of_lt_le hlo hhi
  unfold F64.toInt
  have hneg' : ¬ ((F64.add a b).exp ≥ 0) := by omega
  have htn : (-(F64.add a b).exp).toNat = t := by omega
  simp only [hneg, hneg', htn, hdiv, if_false, Bool.false_eq_true]

theorem ofInt_billion :
    (F64.ofInt 1000000000).neg = false ∧ (F64.ofInt 1000000000).val = 1000000000 ∧
      0 < (F64.ofInt 1000000000).mant := by
  have h := ofInt_val 1000000000 (by decide) (by decide)
  refine ⟨h.1, ?_, by decide⟩
  rw [h.2.1]
  norm_num

/-- Above one second and below `16777216999999999` ns `formatDuration` prints
the whole seconds, truncated. -/
theorem formatDuration_s (d : Int) (h0 : Second ≤ d) (h1 : d < 16777216999999999) :
    formatDuration d = fmtInt (d / Second) ++ "s" := by
  have hS : Second = 1000000000 := rfl
  rw [hS] at h0
  have hd0 : 0 ≤ d := by omega
  unfold formatDuration
  rw [if_neg (by rw [hS]; omega)]
  congr 2
  unfold Seconds
  rw [hS, Int.tdiv_eq_ediv hd0 (by decide), Int.tmod_eq_emod hd0 (by decide)]
  dsimp only
  obtain ⟨s, hs⟩ := Int.eq_ofNat_of_zero_le (show 0 ≤ d / 1000000000 by omega)
  obtain ⟨ns, hns⟩ := Int.eq_ofNat_of_zero_le (show 0 ≤ d % 1000000000 by omega)
  rw [hs, hns]
  have hs1 : 1 ≤ s := by omega
  have hs2 : s ≤ 16777216 := by omega
  have hns1 : ns < 1000000000 := by omega
  have hcase : s < 16777216 ∨ (s = 16777216 ∧ ns ≤ 999999998) := by omega
  obtain ⟨a1, a2, a3⟩ := ofInt_val (s : Int) (by omega) (by norm_num; omega)
  obtain ⟨n1, n2, _⟩ := ofInt_val (ns : Int) (by omega) (by norm_num; omega)
  obtain ⟨c1, c2, c3⟩ := ofInt_billion
  obtain ⟨f1, f2, f3⟩ := div_val_le (F64.ofInt (ns : Int)) (F64.ofInt 1000000000) n1 c1 c3
  rw [n2, c2] at f3
  have ham : 0 < (F64.ofInt (s : Int)).mant := by
    rcases Nat.eq_zero_or_pos (F64.ofInt (s : Int)).mant with h | h
    · have := a3.1 h
      omega
    · exact h
  have h53 : (2 : ℚ) ^ (-53 : Int) = 1 / 9007199254740992 := by
    rw [zpow_neg]; norm_num
  rw [h53] at f3
  push_cast at a2 f3
  have hsq : (1 : ℚ) ≤ s := by exact_mod_cast hs1
  rcases hcase with hc | ⟨hc, hn⟩
  · have hnq : (ns : ℚ) ≤ 999999999 := by
      have : ns ≤ 999999999 := by omega
      exact_mod_cast this
    have hsq2 : (s : ℚ) + 1 ≤ 16777216 := by
      have : s + 1 ≤ 16777216 := by omega
      exact_mod_cast this
    apply toInt_add _ _ a1 f1 ham s 24
    · rw [a2]; linarith
    · rw [a2]
      have : (2 : ℚ) ^ 24 = 16777216 := by norm_num
      rw [this]
      linarith
    · decide
    · rw [a2]
      have : (2 : ℚ) ^ (((24 : Nat) : Int) - 54) = 1 / 1073741824 := by
        rw [show ((24 : Nat) : Int) - 54 = -30 by norm_num, zpow_neg]; norm_num
      rw [this]
      linarith
  · have hnq : (ns : ℚ) ≤ 999999998 := by exact_mod_cast hn
    have hsq2 : (s : ℚ) = 16777216 := by exact_mod_cast hc
    apply toInt_add _ _ a1 f1 ham s 25
    · rw [a2]; linarith
    · rw [a2]
      have : (2 : ℚ) ^ 25 = 33554432 := by norm_num
      rw [this]
      linarith
    · decide
    · rw [a2]
      have : (2 : ℚ) ^ (((25 : Nat) : Int) - 54) = 1 / 536870912 := by
        rw [show ((25 : Nat) : Int) - 54 = -29 by norm_num, zpow_neg]; norm_num
      rw [this]
      linarith

/-- The sum that `Duration.Seconds` forms for 16777216 s and 999999999 ns:
`float64(16777216) + float64(999999999) / 1e9`. The spacing of binary64
values at `2^24` is `2^(-28)`, more than twice the missing nanosecond, so the
sum rounds to 16777217 and `formatDuration` prints `16777217s`; one
nanosecond less prints `16777216s`. -/
theorem formatDuration_rounds_up :
    Second ≤ 16777216999999999 ∧
      (16777216999999999 : Int) / Second = 16777216 ∧
      fmtInt ((16777216999999999 : Int) / Second) ++ "s" = "16777216s" ∧
      Seconds 16777216999999999 = { neg := false, mant := 4503599895805952, exp := -28 } ∧
      F64.toInt (Seconds 16777216999999999) = 16777217 ∧
      formatDuration 16777216999999999 = "16777217s" ∧
      formatDuration 16777216999999998 = "16777216s" := by
  refine ⟨by decide, by decide, by decide, by decide, by decide, by decide, by decide⟩

/-- C10, as stated, fails: it is not so that every non-negative duration is
printed as its whole milliseconds below one second and as its whole seconds,
truncated, from one second on. At `d = 16777216999999999` ns, which is
16777216 s and 999999999 ns, the whole seconds are 16777216 and
`formatDuration` prints `16777217s`. -/
theorem formatDuration_not_truncated :
    ¬ (∀ d : Int, 0 ≤ d →
        formatDuration d =
          if d < 1000000000 then toString (d / 1000000) ++ "ms"
          else toString (d / 1000000000) ++ "s") := by
  intro h
  have h1 := h 16777216999999999 (by decide)
  exact absurd h1 (by decide)

/-- C10, amended: for every duration `d` with `0 ≤ d < 16777216999999999` ns
(`2^24` s and 999999999 ns, about 194 days) `formatDuration d` is the decimal
rendering of the whole milliseconds of `d` followed by `ms` when `d` is below
one second, and of the whole seconds of `d`, truncated, followed by `s`
otherwise. -/
theorem formatDuration_whole (d : Int) (h0 : 0 ≤ d) (h1 : d < 16777216999999999) :
    formatDuration d =
      if d < 1000000000 then toString (d / 1000000) ++ "ms"
      else toString (d / 1000000000) ++ "s" := by
  by_cases h : d < 1000000000
  · rw [if_pos h]; exact formatDuration_ms d h0 h
  · rw [if_neg h]; exact formatDuration_s d (not_lt.1 h) h1

/-- Witness of C10 amended: a second and a half prints `1s`, two minutes
print `120s`, a nanosecond less than a second prints `999ms`. -/
theorem formatDuration_whole_witness :
    (0 : Int) ≤ 1500000000 ∧ (1500000000 : Int) < 16777216999999999 ∧
      formatDuration 1500000000 = "1s" ∧ formatDuration 120000000000 = "120s" ∧
      formatDuration 999999999 = "999ms" :=
  ⟨by decide, by decide,
   (formatDuration_whole 1500000000 (by decide) (by decide)).trans (by decide),
   (formatDuration_whole 120000000000 (by decide) (by decide)).trans (by decide),
   (formatDuration_whole 999999999 (by decide) (by decide)).trans (by decide)⟩

end ServiceWait
